import Mathlib

/-
Verification of the dependency-graph resolution algorithm of
src/conans/client/graph/graph_builder.py (class DepsGraphBuilder).

The Python code is shallowly embedded: mutable object state becomes explicit
state passing over a GraphState record, Python dictionaries become association
lists, OrderedDict becomes an association list whose insertion order is kept,
exceptions become the Except monad, and the unbounded recursion of the
expansion engine is driven by an explicit fuel counter.  External collaborators
(recipe provider, manifest loader, range resolver, lock, hooks) are not part of
the sources; where the algorithm needs them they are modelled from the spec and
marked as such in their doc comments.
-/

namespace ConanGraph

/-- Package reference: name, version, optional user/channel, optional revision
(conans.model.ref.ConanFileReference as used by graph_builder.py). -/
structure ConanFileReference where
  name : String
  version : String
  user : Option String := none
  channel : Option String := none
  revision : Option String := none
deriving DecidableEq, Repr

/-- ConanFileReference.copy_clear_rev: the same reference with the revision dropped. -/
def ConanFileReference.copy_clear_rev (r : ConanFileReference) : ConanFileReference :=
  { r with revision := none }

/-- Requirement edge specification (conans.model.requires.Requirement): a mutable
target reference and the flags private (here priv, since that word is reserved),
build_require and override. -/
structure Requirement where
  ref : ConanFileReference
  priv : Bool := false
  build_require : Bool := false
  override : Bool := false
deriving DecidableEq, Repr

/-- Data carried by the version-conflict message built at graph_builder.py
lines 263-266: the consumer reference, the newly requested reference and the
previously pinned reference, all three of which appear in the message text. -/
structure ConflictMsg where
  consumer : ConanFileReference
  requested : ConanFileReference
  previous : ConanFileReference
deriving DecidableEq, Repr

/-- Data carried by the revision-conflict exception raised at graph_builder.py
lines 273-275: the consumer reference and the requested reference (the
previously pinned reference does not appear in that message). -/
structure RevisionConflictMsg where
  consumer : ConanFileReference
  requested : ConanFileReference
deriving DecidableEq, Repr

/-- The value returned by _conflicting_references when it does not raise:
a conflict message (truthy string), the bare Python True, or False. -/
inductive ConflictCheck where
  | conflictMsg (m : ConflictMsg)
  | conflictTrue
  | noConflict
deriving DecidableEq, Repr

/-- graph_builder.py lines 259-277, _conflicting_references.  A raised
revision-conflict exception is the error of the Except monad; the two
plain returns of True (lines 267 and 276) are both ConflictCheck.conflictTrue,
exactly as the two Python code paths return the same value True. -/
def _conflicting_references (previous_ref new_ref : ConanFileReference)
    (consumer_ref : Option ConanFileReference) :
    Except RevisionConflictMsg ConflictCheck :=
  if previous_ref.copy_clear_rev ≠ new_ref.copy_clear_rev then
    match consumer_ref with
    | some c => .ok (.conflictMsg ⟨c, new_ref, previous_ref⟩)
    | none => .ok .conflictTrue
  else
    match previous_ref.revision, new_ref.revision with
    | some rp, some rn =>
      if rp ≠ rn then
        match consumer_ref with
        | some c => .error ⟨c, new_ref⟩
        | none => .ok .conflictTrue
      else .ok .noConflict
    | _, _ => .ok .noConflict

/-- The alias table graph.aliased: a Python dict from reference to reference,
embedded as an association list with insertion order kept. -/
abbrev AliasTable := List (ConanFileReference × ConanFileReference)

/-- Python dict lookup on the alias table. -/
def lookupRef (t : AliasTable) (k : ConanFileReference) : Option ConanFileReference :=
  (t.find? (fun p => decide (p.1 = k))).map (fun p => p.2)

/-- Python dict assignment on the alias table: replace in place or append. -/
def insertRef (t : AliasTable) (k v : ConanFileReference) : AliasTable :=
  if t.any (fun p => decide (p.1 = k)) then
    t.map (fun p => if p.1 = k then (k, v) else p)
  else t ++ [(k, v)]

/-- graph_builder.py lines 126-132, _resolve_cached_alias applied to a single
requirement (the call at line 222 passes the one-element list [require]):
one dict lookup, and a rewrite of the requirement reference on a hit. -/
def resolveCachedAliasOne (aliased : AliasTable) (require : Requirement) : Requirement :=
  if aliased.isEmpty then require
  else
    match lookupRef aliased require.ref with
    | some al => { require with ref := al }
    | none => require

/-- graph_builder.py lines 126-132, _resolve_cached_alias over a requirement
list: if graph.aliased is non-empty, each requirement whose reference has a
cached alias target is rewritten to that target by a single dict lookup. -/
def _resolve_cached_alias (requires : List Requirement) (aliased : AliasTable) :
    List Requirement :=
  if aliased.isEmpty then requires
  else
    requires.map (fun require =>
      match lookupRef aliased require.ref with
      | some al => { require with ref := al }
      | none => require)

/-- A loaded manifest (conanfile): its declared requirements, an optional alias
declaration, its configured option values and the option values it assigns to
its dependencies.  The manifest loader itself is an external collaborator
(spec section 6); recipes here are static data. -/
structure Recipe where
  requires : List Requirement := []
  aliasTarget : Option ConanFileReference := none
  options : List (String × String) := []
  depsOptions : List (String × List (String × String)) := []
deriving DecidableEq, Repr

/-- The recipe universe: what the proxy/loader pair can resolve.  Modelled from
the spec: the Recipe Provider (spec section 6) maps a requested reference to a
resolved reference plus a loaded manifest; lookup ignores the revision and
returns the stored (fully resolved) reference. -/
abbrev RecipeUniverse := List (ConanFileReference × Recipe)

/-- Modelled from the spec: proxy.get_recipe plus loader.load_conanfile
(spec section 6, Recipe Provider and Manifest Loader, both outside the
sources): find the recipe for a reference, ignoring its revision, and return
the resolved reference together with the manifest. -/
def getRecipe (u : RecipeUniverse) (ref : ConanFileReference) :
    Option (ConanFileReference × Recipe) :=
  u.find? (fun p => decide (p.1.copy_clear_rev = ref.copy_clear_rev))

/-- Result of _resolve_recipe: the resolved reference, the loaded manifest, and
the two pieces of state the Python function mutates in place — the requirement
(whose ref is rewritten through alias declarations) and graph.aliased. -/
structure ResolvedRecipe where
  new_ref : ConanFileReference
  dep_conanfile : Recipe
  requirement : Requirement
  aliased : AliasTable
deriving DecidableEq, Repr

/-- All errors the embedded algorithm can raise. -/
inductive ConanError where
  | loopDetected (nodeRef : Option ConanFileReference) (reqRef : ConanFileReference)
  | referenceConflict (m : ConflictMsg)
  | conflictTrueRaised
  | revisionConflict (m : RevisionConflictMsg)
  | nondeterministicRequirements (scope : Option ConanFileReference)
      (previousReqs newReqs : List Requirement)
  | recipeNotFound (ref : ConanFileReference)
  | fuelExhausted
deriving DecidableEq, Repr

/-- graph_builder.py lines 352-382, _resolve_recipe.  Fetch and load the
recipe for requirement.ref; if the manifest declares an alias, record the
revision-stripped resolved reference mapping to the alias target in
graph.aliased, record the target under original_ref when one was given,
rewrite the requirement, and recurse.  The source puts no bound on alias
chains (spec section 9); the fuel makes the recursion well founded. -/
def _resolve_recipe (u : RecipeUniverse) (fuel : Nat) (requirement : Requirement)
    (aliased : AliasTable) (original_ref : Option ConanFileReference) :
    Except ConanError ResolvedRecipe :=
  match fuel with
  | 0 => .error .fuelExhausted
  | fuel + 1 =>
    match getRecipe u requirement.ref with
    | none => .error (.recipeNotFound requirement.ref)
    | some (new_ref, dep_conanfile) =>
      match dep_conanfile.aliasTarget with
      | some pointed_ref =>
        let new_ref_norev := new_ref.copy_clear_rev
        let aliased := insertRef aliased new_ref_norev pointed_ref
        let requirement := { requirement with ref := pointed_ref }
        let aliased :=
          match original_ref with
          | some o => insertRef aliased o pointed_ref
          | none => aliased
        _resolve_recipe u fuel requirement aliased original_ref
      | none => .ok ⟨new_ref, dep_conanfile, requirement, aliased⟩

/-- Lift the detector result into the global error type: a raised revision
conflict becomes ConanError.revisionConflict. -/
def liftConflict (e : Except RevisionConflictMsg ConflictCheck) :
    Except ConanError ConflictCheck :=
  match e with
  | .error m => .error (.revisionConflict m)
  | .ok c => .ok c

/-- raise ConanException(conflict): the Python raise of the truthy value
returned by _conflicting_references. -/
def raisedConflict : ConflictCheck → ConanError
  | .conflictMsg m => .referenceConflict m
  | _ => .conflictTrueRaised

/-- Outcome of the diamond-closing conflict step: the (possibly rewritten)
requirement, the updated alias table, and how many times _resolve_recipe was
invoked by this step. -/
structure DiamondCheckResult where
  require : Requirement
  aliased : AliasTable
  resolveCalls : Nat
deriving DecidableEq, Repr

/-- graph_builder.py lines 221-234, the conflict portion of the diamond-closing
branch of _expand_require: re-resolve cached aliases on the requirement, check
the conflict against the previously pinned reference (passing the consumer
node reference), and on a truthy conflict attempt a single _resolve_recipe
call before rechecking or raising.  The _resolve_recipe return value is
discarded in the source; only its in-place mutations of the requirement and
of graph.aliased survive, exactly as here. -/
def diamond_conflict_check (u : RecipeUniverse) (fuel : Nat)
    (previous_ref : ConanFileReference) (node_ref : Option ConanFileReference)
    (require : Requirement) (aliased : AliasTable) :
    Except ConanError DiamondCheckResult :=
  let require := resolveCachedAliasOne aliased require
  match liftConflict (_conflicting_references previous_ref require.ref node_ref) with
  | .error e => .error e
  | .ok .noConflict => .ok ⟨require, aliased, 0⟩
  | .ok conflict =>
    let conflicting_ref := require.ref
    match _resolve_recipe u fuel require aliased none with
    | .error e => .error e
    | .ok res =>
      let require := res.requirement
      let aliased := res.aliased
      if conflicting_ref = require.ref then .error (raisedConflict conflict)
      else
        match liftConflict (_conflicting_references previous_ref require.ref node_ref) with
        | .error e => .error e
        | .ok .noConflict => .ok ⟨require, aliased, 1⟩
        | .ok conflict2 => .error (raisedConflict conflict2)

/-- An OrderedDict (and, for public_deps, a plain dict) from package name to
node id, embedded as an association list whose insertion order is kept. -/
abbrev OD := List (String × Nat)

/-- Dict lookup by package name. -/
def odGet (d : OD) (k : String) : Option Nat :=
  (d.find? (fun p => decide (p.1 = k))).map (fun p => p.2)

/-- Dict assignment: an existing key keeps its position, a new key is
appended, matching Python dict and OrderedDict assignment. -/
def odInsert (d : OD) (k : String) (v : Nat) : OD :=
  if d.any (fun p => decide (p.1 = k)) then
    d.map (fun p => if p.1 = k then (k, v) else p)
  else d ++ [(k, v)]

/-- dict.update: assign every entry of the second dict into the first. -/
def odUpdate (d d2 : OD) : OD :=
  d2.foldl (fun acc p => odInsert acc p.1 p.2) d

/-- Set union on name lists, keeping the first list's order and appending the
genuinely new names (Python set.update / set.union). -/
def listUnion (a b : List String) : List String :=
  a ++ b.filter (fun x => decide (x ∉ a))

/-- One node of the dependency graph (conans.client.graph.graph.Node is not in
the sources; its visibility fields are those the spec lists in section 3 and
that graph_builder.py reads and writes).  Mutable Python attributes become
fields updated through the state.  declaredRequires snapshots the recipe's
requirements() output, which for these static recipes is what every
re-evaluation of the hook produces (spec section 4.2). -/
structure NodeState where
  id : Nat
  name : String
  ref : Option ConanFileReference := none
  declaredRequires : List Requirement := []
  requires : List Requirement := []
  ancestors : List String := []
  public_deps : OD := []
  public_closure : OD := []
  transitive_closure : OD := []
  inverse_closure : List Nat := []
  options : List (String × String) := []
  depsOptions : List (String × List (String × String)) := []
  evaluatedRequires : Option (List Requirement) := none
  package_id : Option String := none
  revision_pinned : Bool := false
deriving DecidableEq, Repr

/-- The whole mutable state of one graph build: the DepsGraph node list, the
edge multiset (parent id, child id, requirement), the alias table and the
monotically increasing id counter. -/
structure GraphState where
  nodes : List NodeState := []
  edges : List (Nat × Nat × Requirement) := []
  aliased : AliasTable := []
  nextId : Nat := 0
deriving DecidableEq, Repr

/-- Fetch a node of the graph by id. -/
def getNode (st : GraphState) (i : Nat) : Option NodeState :=
  st.nodes.find? (fun n => decide (n.id = i))

/-- Apply an in-place mutation to the node with the given id. -/
def updNode (st : GraphState) (i : Nat) (f : NodeState → NodeState) : GraphState :=
  { st with nodes := st.nodes.map (fun n => if n.id = i then f n else n) }

/-- Modelled from the spec: Node.connect_closure lives in
conans/client/graph/graph.py, which is not among the sources.  Per spec
section 4.3 it connects a node's closure to another node, i.e. adds the other
node to the first node's reachable set (public_closure, keyed by the other
node's name), and per the inverseClosure description of section 3 it records
the first node as a dependent of the other. -/
def connect_closure (st : GraphState) (selfId otherId : Nat) : GraphState :=
  match getNode st otherId with
  | none => st
  | some other =>
    let st := updNode st selfId
      (fun n => { n with public_closure := odInsert n.public_closure other.name otherId })
    updNode st otherId
      (fun n => { n with inverse_closure :=
        if selfId ∈ n.inverse_closure then n.inverse_closure
        else n.inverse_closure ++ [selfId] })

/-- graph_builder.py lines 158-166: the idempotence check on re-evaluated
requirements.  If no snapshot exists yet the current requirement set becomes
the snapshot; if a snapshot exists and the current set differs, the
incompatible-requirements (RequirementsNondeterminism) error is raised;
otherwise the snapshot is kept unchanged. -/
def checkEvaluatedRequires (scope : Option ConanFileReference)
    (evaluated : Option (List Requirement)) (current : List Requirement) :
    Except ConanError (List Requirement) :=
  match evaluated with
  | none => .ok current
  | some ev =>
    if current ≠ ev then .error (.nondeterministicRequirements scope ev current)
    else .ok ev

/-- Modelled from the spec: Requirements.update (conans/model/requires.py is
not among the sources).  Spec section 4.2: declared requirements are merged
with the downstream-propagated ones, a downstream requirement for the same
name superseding the node's own declared version; the returned pair is the
node's updated own requirement list and the requirement set propagated
further upstream (downstream entries plus the node's own remaining ones). -/
def updateRequiresDownstream (own down : List Requirement) :
    List Requirement × List Requirement :=
  let own2 := own.map (fun r =>
    match down.find? (fun d => decide (d.ref.name = r.ref.name)) with
    | some d => { r with ref := d.ref }
    | none => r)
  let propagated := down ++ own2.filter (fun r =>
    (down.find? (fun d => decide (d.ref.name = r.ref.name))).isNone)
  (own2, propagated)

/-- graph_builder.py lines 134-168, _get_node_requirements.  The external
configuration step (_config_node, lines 296-350: hooks, option propagation and
validation, all collaborator surface per spec sections 4.2 and 6) is modelled
as restoring the declared requirement set — exactly what lines 334-340 do for
these static recipes, where requirements() always yields the declared list —
and as producing the node's stored downstream option values.  Then cached
aliases are resolved; under a lock the requirement set is taken as is and no
downstream propagation happens (new requirements None); otherwise downstream
requirements are merged in, ranges are resolved (the external range resolver
of spec section 6 modelled as the identity) with a second cached-alias pass,
and the re-evaluation idempotence check runs. -/
def _get_node_requirements (st : GraphState) (nodeId : Nat)
    (down_reqs : List Requirement) (graph_lock : Bool) :
    Except ConanError (GraphState × List (String × List (String × String)) ×
      Option (List Requirement)) :=
  match getNode st nodeId with
  | none => .ok (st, [], none)
  | some node =>
    let new_options := node.depsOptions
    let requires1 := _resolve_cached_alias node.declaredRequires st.aliased
    if graph_lock then
      let st := updNode st nodeId (fun n => { n with requires := requires1 })
      .ok (st, new_options, none)
    else
      let (own2, _) := updateRequiresDownstream requires1 down_reqs
      let own3 := _resolve_cached_alias own2 st.aliased
      let new_reqs := down_reqs ++ own3.filter (fun r =>
        (down_reqs.find? (fun d => decide (d.ref.name = r.ref.name))).isNone)
      match checkEvaluatedRequires node.ref node.evaluatedRequires own3 with
      | .error e => .error e
      | .ok snapshot =>
        let st := updNode st nodeId
          (fun n => { n with requires := own3, evaluatedRequires := some snapshot })
        .ok (st, new_options, some new_reqs)

/-- graph_builder.py lines 283-286, the requirements loop of _recurse: the
first downstream requirement whose name is found in the closure and whose
reference conflicts (no consumer is passed, so the detector cannot raise,
though the monad keeps the possibility) makes the loop return True. -/
def _recurse_requires (st : GraphState) (closure : OD) :
    List Requirement → Except RevisionConflictMsg Bool
  | [] => .ok false
  | req :: rest =>
    match odGet closure req.ref.name with
    | none => _recurse_requires st closure rest
    | some nid =>
      match getNode st nid with
      | none => _recurse_requires st closure rest
      | some n =>
        match n.ref with
        | none => _recurse_requires st closure rest
        | some nref =>
          match _conflicting_references nref req.ref none with
          | .error e => .error e
          | .ok .noConflict => _recurse_requires st closure rest
          | .ok _ => .ok true

/-- The inner option comparison of _recurse (lines 290-293): some option of the
downstream assignment differs from the value configured on the node. -/
def optionMismatch (nodeOptions : List (String × String))
    (vals : List (String × String)) : Bool :=
  vals.any (fun ov =>
    decide (((nodeOptions.find? (fun p => decide (p.1 = ov.1))).map
      (fun p => p.2)) ≠ some ov.2))

/-- graph_builder.py lines 287-293, the options loop of _recurse. -/
def _recurse_options (st : GraphState) (closure : OD) :
    List (String × List (String × String)) → Bool
  | [] => false
  | (pkg, vals) :: rest =>
    match odGet closure pkg with
    | none => _recurse_options st closure rest
    | some nid =>
      match getNode st nid with
      | none => _recurse_options st closure rest
      | some n =>
        if optionMismatch n.options vals then true
        else _recurse_options st closure rest

/-- graph_builder.py lines 279-294, _recurse: a closure needs re-expansion when
some downstream requirement or option assignment is incompatible with it. -/
def _recurse (st : GraphState) (closure : OD) (new_reqs : List Requirement)
    (new_options : List (String × List (String × String))) :
    Except RevisionConflictMsg Bool :=
  match _recurse_requires st closure new_reqs with
  | .error e => .error e
  | .ok true => .ok true
  | .ok false => .ok (_recurse_options st closure new_options)

/-- graph_builder.py line 255: the guard of the selective re-expansion,
not graph_lock and _recurse(previous.public_closure, new_reqs, new_options),
with the same short-circuit (under a lock _recurse is not evaluated). -/
def shouldReexpand (graph_lock : Bool) (st : GraphState) (closure : OD)
    (new_reqs : List Requirement)
    (new_options : List (String × List (String × String))) :
    Except RevisionConflictMsg Bool :=
  if graph_lock then .ok false
  else _recurse st closure new_reqs new_options

/-- graph_builder.py lines 198-209: the public_deps of a freshly created node.
A private or build requirement copies the requesting node's public_closure
(and adds the node itself under the requirement name); a normal requirement
copies the requesting node's public_deps instead. -/
def new_node_public_deps (require : Requirement)
    (parentPublicDeps parentPublicClosure : OD) (name : String) (newId : Nat) : OD :=
  if require.priv || require.build_require then
    odInsert parentPublicClosure name newId
  else
    odInsert parentPublicDeps name newId

/-- graph_builder.py lines 384-405, _create_new_node: resolve the recipe
(following alias declarations, original_ref not supplied), build the Node with
ancestors equal to a copy of the requesting node's ancestors plus the
requesting node's own name, record the revision pin, and add node and edge to
the graph. -/
def _create_new_node (u : RecipeUniverse) (fuel : Nat) (st : GraphState)
    (currentId : Nat) (requirement : Requirement) :
    Except ConanError (GraphState × Nat) :=
  match getNode st currentId with
  | none => .error (.recipeNotFound requirement.ref)
  | some current =>
    match _resolve_recipe u fuel requirement st.aliased none with
    | .error e => .error e
    | .ok res =>
      let st := { st with aliased := res.aliased }
      let newId := st.nextId
      let new_node : NodeState :=
        { id := newId
          name := res.new_ref.name
          ref := some res.new_ref
          declaredRequires := res.dep_conanfile.requires
          options := res.dep_conanfile.options
          depsOptions := res.dep_conanfile.depsOptions
          revision_pinned := res.requirement.ref.revision.isSome
          ancestors := listUnion current.ancestors [current.name] }
      let st := { st with
        nodes := st.nodes ++ [new_node]
        nextId := newId + 1
        edges := st.edges ++ [(currentId, newId, res.requirement)] }
      .ok (st, newId)

/-- graph_builder.py lines 192-194: initialise a freshly created node's
public and transitive closures to the singleton of itself, keyed by the
pre-resolution requirement name as in the source. -/
def init_closures (st : GraphState) (newId : Nat) (name : String) : GraphState :=
  updNode st newId (fun n =>
    { n with public_closure := [(name, newId)]
             transitive_closure := [(name, newId)] })

/-- graph_builder.py line 206: record the new node in the requesting node's
transitive closure (normal requirements only). -/
def record_transitive (st : GraphState) (nodeId newId : Nat) (name : String) :
    GraphState :=
  updNode st nodeId (fun n =>
    { n with transitive_closure := odInsert n.transitive_closure name newId })

/-- graph_builder.py lines 198-209: assign the new node's public_deps per
new_node_public_deps — a private or build requirement copies the requesting
node's current public_closure, a normal one copies its public_deps. -/
def assign_public_deps (st : GraphState) (nodeId newId : Nat)
    (require : Requirement) (name : String) : GraphState :=
  if require.priv || require.build_require then
    updNode st newId (fun n =>
      { n with public_deps :=
          (new_node_public_deps require []
            (((getNode st nodeId).map (fun m => m.public_closure)).getD [])
            name newId) })
  else
    updNode st newId (fun n =>
      { n with public_deps :=
          (new_node_public_deps require
            (((getNode st nodeId).map (fun m => m.public_deps)).getD [])
            [] name newId) })

/-- graph_builder.py lines 211-213: connect every existing dependent of the
requesting node to the new node. -/
def connect_dependents (st : GraphState) (nodeId newId : Nat) : GraphState :=
  (((getNode st nodeId).map (fun n => n.inverse_closure)).getD []).foldl
    (fun acc depId => connect_closure acc depId newId) st

/-- graph_builder.py lines 192-213: the bookkeeping attached to a freshly
created node — initialise its closures, connect the requesting node's closure
to it, then assign its public_deps (for a normal requirement additionally
recording it in the requesting node's transitive closure and connecting every
existing dependent of the requesting node). -/
def attach_new_node (st : GraphState) (nodeId newId : Nat) (require : Requirement)
    (name : String) : GraphState :=
  let st := init_closures st newId name
  let st := connect_closure st nodeId newId
  if require.priv || require.build_require then
    assign_public_deps st nodeId newId require name
  else
    let st := record_transitive st nodeId newId name
    let st := assign_public_deps st nodeId newId require name
    connect_dependents st nodeId newId

/-- graph_builder.py lines 218-219: after the depth-first recursion returns
for a non-private, non-build requirement, merge the new node's transitive
closure into the requesting node's. -/
def merge_transitive (st : GraphState) (nodeId newId : Nat) : GraphState :=
  let childTC := ((getNode st newId).map (fun n => n.transitive_closure)).getD []
  updNode st nodeId (fun n =>
    { n with transitive_closure := odUpdate n.transitive_closure childTC })

/-- graph_builder.py lines 236-239: union the requesting node's ancestors
plus its own name into the ancestors of every node of the previous node's
public closure. -/
def union_ancestors (st : GraphState) (prevId : Nat) (unionNames : List String) :
    GraphState :=
  (((getNode st prevId).map (fun n => n.public_closure)).getD []).foldl
    (fun acc p => updNode acc p.2 (fun n =>
      { n with ancestors := listUnion n.ancestors unionNames })) st

/-- graph_builder.py line 242: record the diamond-closing edge. -/
def record_edge (st : GraphState) (nodeId prevId : Nat) (require : Requirement) :
    GraphState :=
  { st with edges := st.edges ++ [(nodeId, prevId, require)] }

/-- graph_builder.py line 244: merge a transitive closure into the requesting
node's. -/
def merge_tc_node (st : GraphState) (nodeId : Nat) (prevTC : OD) : GraphState :=
  updNode st nodeId (fun n =>
    { n with transitive_closure := odUpdate n.transitive_closure prevTC })

/-- graph_builder.py lines 248-251: connect every entry of the previous
node's transitive closure to the requesting node and to all its existing
dependents. -/
def connect_tc_entries (st : GraphState) (nodeId : Nat) (prevTC : OD) : GraphState :=
  prevTC.foldl (fun acc p =>
    let acc := connect_closure acc nodeId p.2
    let inv := ((getNode acc nodeId).map (fun n => n.inverse_closure)).getD []
    inv.foldl (fun a depId => connect_closure a depId p.2) acc) st

/-- graph_builder.py lines 243-251: for a normal requirement, merge the
previous node's transitive closure into the requesting node's and connect
its entries to the requesting node and its dependents. -/
def merge_previous_transitive (st : GraphState) (nodeId prevId : Nat) : GraphState :=
  let prevTC := ((getNode st prevId).map (fun n => n.transitive_closure)).getD []
  connect_tc_entries (merge_tc_node st nodeId prevTC) nodeId prevTC

/-- graph_builder.py lines 236-252: the non-conflicting part of diamond
closing — the ancestor union over the previous node's public closure, the
connection and edge, and for a normal requirement the transitive merges. -/
def diamond_connect (st : GraphState) (nodeId prevId : Nat) (require : Requirement)
    (nodeAncestors : List String) (nodeName : String) : GraphState :=
  let st := union_ancestors st prevId (listUnion nodeAncestors [nodeName])
  let st := connect_closure st nodeId prevId
  let st := record_edge st nodeId prevId require
  if require.priv || require.build_require then st
  else merge_previous_transitive st nodeId prevId

/-- graph_builder.py lines 221-255 without the final recursion: the whole
diamond-closing branch of _expand_require up to and including the evaluation
of the selective re-expansion guard, returning the updated state and whether
the previous node must be re-expanded. -/
def diamond_close_step (u : RecipeUniverse) (graph_lock : Bool) (fuel : Nat)
    (st : GraphState) (nodeId prevId : Nat) (require : Requirement)
    (node_ref : Option ConanFileReference) (nodeAncestors : List String)
    (nodeName : String) (new_reqs : List Requirement)
    (new_options : List (String × List (String × String))) :
    Except ConanError (GraphState × Bool) :=
  let previous_ref := ((getNode st prevId).bind (fun n => n.ref)).getD
    ⟨"", "", none, none, none⟩
  match diamond_conflict_check u fuel previous_ref node_ref require st.aliased with
  | .error e => .error e
  | .ok dres =>
    let st := { st with aliased := dres.aliased }
    let st := diamond_connect st nodeId prevId dres.require nodeAncestors nodeName
    let prevPC2 := ((getNode st prevId).map (fun n => n.public_closure)).getD []
    match shouldReexpand graph_lock st prevPC2 new_reqs new_options with
    | .error e => .error (.revisionConflict e)
    | .ok b => .ok (st, b)

/-- All node ids of the graph are below the id counter; load_graph starts in
such a state and every step of the engine preserves it. -/
def idsBounded (st : GraphState) : Prop :=
  ∀ n ∈ st.nodes, n.id < st.nextId

/-- Between two states, every node whose id is below k keeps its exact
public_deps map. -/
def pdFixedBelow (k : Nat) (st st2 : GraphState) : Prop :=
  ∀ i, i < k → ∀ n, getNode st i = some n →
    ∃ n2, getNode st2 i = some n2 ∧ n2.public_deps = n.public_deps

/-- A state transformation that keeps the id counter, preserves id
boundedness, and leaves the public_deps of every node untouched. -/
def stepOK (st st2 : GraphState) : Prop :=
  st2.nextId = st.nextId ∧ (idsBounded st → idsBounded st2) ∧
  ∀ k, pdFixedBelow k st st2

/-- A state transformation that keeps the id counter, preserves id
boundedness, and leaves the public_deps of every node with id below k
untouched. -/
def stepBelow (k : Nat) (st st2 : GraphState) : Prop :=
  st2.nextId = st.nextId ∧ (idsBounded st → idsBounded st2) ∧ pdFixedBelow k st st2

/-- The three mutually recursive procedures of the expansion engine, encoded
as one structurally fuel-recursive function so that concrete executions reduce
inside the kernel: a call is either _expand_node, the requirement loop inside
it, or _expand_require. -/
inductive ExpandCall where
  | node (nodeId : Nat) (down_reqs : List Requirement)
      (down_ref : Option ConanFileReference)
  | loop (nodeId : Nat) (requires : List Requirement)
      (new_reqs : Option (List Requirement))
      (new_options : List (String × List (String × String)))
  | require (nodeId : Nat) (require : Requirement)
      (new_reqs : Option (List Requirement))
      (new_options : List (String × List (String × String)))

/-- The expansion engine of graph_builder.py: the bodies of _expand_node
(lines 101-119) and _expand_require (lines 170-257), dispatched on
ExpandCall; every recursive call consumes one unit of fuel. -/
def _expand (u : RecipeUniverse) (graph_lock : Bool) :
    Nat → GraphState → ExpandCall → Except ConanError GraphState
  | 0, _, _ => .error .fuelExhausted
  | fuel + 1, st, .node nodeId down_reqs _down_ref =>
    match _get_node_requirements st nodeId down_reqs graph_lock with
    | .error e => .error e
    | .ok (st, new_options, new_reqs) =>
      let requires := ((getNode st nodeId).map (fun n => n.requires)).getD []
      _expand u graph_lock fuel st (.loop nodeId requires new_reqs new_options)
  | fuel + 1, st, .loop nodeId requires new_reqs new_options =>
    match requires with
    | [] => .ok st
    | require :: rest =>
      if require.override then
        _expand u graph_lock fuel st (.loop nodeId rest new_reqs new_options)
      else
        match _expand u graph_lock fuel st
            (.require nodeId require new_reqs new_options) with
        | .error e => .error e
        | .ok st => _expand u graph_lock fuel st (.loop nodeId rest new_reqs new_options)
  | fuel + 1, st, .require nodeId require new_reqs new_options =>
    match getNode st nodeId with
    | none => .ok st
    | some node =>
      let name := require.ref.name
      if name ∈ node.ancestors ∨ name = node.name then
        .error (.loopDetected node.ref require.ref)
      else
        let previous := odGet node.public_deps name
        let previous_closure := odGet node.public_closure name
        if previous.isNone || ((require.build_require || require.priv) &&
            previous_closure.isNone) then
          match _create_new_node u fuel st nodeId require with
          | .error e => .error e
          | .ok (st, newId) =>
            let st := attach_new_node st nodeId newId require name
            match _expand u graph_lock fuel st
                (.node newId (new_reqs.getD []) node.ref) with
            | .error e => .error e
            | .ok st =>
              if require.priv || require.build_require then .ok st
              else .ok (merge_transitive st nodeId newId)
        else
          match previous with
          | none => .ok st
          | some prevId =>
            match diamond_close_step u graph_lock fuel st nodeId prevId require
                node.ref node.ancestors node.name (new_reqs.getD []) new_options with
            | .error e => .error e
            | .ok (st, true) =>
              _expand u graph_lock fuel st (.node prevId (new_reqs.getD []) node.ref)
            | .ok (st, false) => .ok st

/-- graph_builder.py lines 101-119, _expand_node: evaluate the node's
requirements, then expand every non-override requirement in order. -/
def _expand_node (u : RecipeUniverse) (graph_lock : Bool) (fuel : Nat)
    (st : GraphState) (nodeId : Nat) (down_reqs : List Requirement)
    (down_ref : Option ConanFileReference) : Except ConanError GraphState :=
  _expand u graph_lock fuel st (.node nodeId down_reqs down_ref)

/-- graph_builder.py lines 170-257, _expand_require. -/
def _expand_require (u : RecipeUniverse) (graph_lock : Bool) (fuel : Nat)
    (st : GraphState) (nodeId : Nat) (require : Requirement)
    (new_reqs : Option (List Requirement))
    (new_options : List (String × List (String × String))) :
    Except ConanError GraphState :=
  _expand u graph_lock fuel st (.require nodeId require new_reqs new_options)

/-- graph_builder.py lines 50-67, load_graph: initialise the root node (its
public_closure, transitive_closure and public_deps all start as the singleton
map of its own name, its ancestor set empty) and expand it recursively. -/
def load_graph (u : RecipeUniverse) (rootName : String)
    (rootRequires : List Requirement) (graph_lock : Bool) (fuel : Nat) :
    Except ConanError GraphState :=
  let root : NodeState :=
    { id := 0
      name := rootName
      declaredRequires := rootRequires
      public_closure := [(rootName, 0)]
      transitive_closure := [(rootName, 0)]
      public_deps := [(rootName, 0)] }
  let st : GraphState := { nodes := [root], nextId := 1 }
  _expand_node u graph_lock fuel st 0 [] none

/-- Stable insertion step of an ascending sort on a Boolean key, entries with
key false coming first: the inserted element goes in front of the first
element that does not compare strictly below it.  This is the semantics of
Python list.sort restricted to a Boolean key. -/
def sortKeyInsert (key : α → Bool) (x : α) : List α → List α
  | [] => [x]
  | y :: ys =>
    if !(key x) || key y then x :: y :: ys
    else y :: sortKeyInsert key x ys

/-- Python list.sort with a Boolean key: a stable ascending sort (False before
True), embedded as a stable insertion sort. -/
def pyStableSortByKey (key : α → Bool) (l : List α) : List α :=
  l.foldr (sortKeyInsert key) []

/-- graph_builder.py line 94: membership of a closure entry in the set of
newly added graph nodes, those whose package_id is still unassigned. -/
def isNewEntry (graphNodes : List NodeState) (entry : String × Nat) : Bool :=
  graphNodes.any (fun n => decide (n.id = entry.2 ∧ n.package_id = none))

/-- graph_builder.py lines 94-98, the closing step of extend_build_requires:
the node's public_closure items are sorted by the Boolean key
x[1] not in new_nodes, so that newly added nodes come first, and stored back
as the new public_closure order. -/
def extend_build_requires_reorder (graphNodes : List NodeState)
    (public_closure : OD) : OD :=
  pyStableSortByKey (fun entry => !(isNewEntry graphNodes entry)) public_closure


/-- Version-or-revision incompatibility between two references: they differ
ignoring revisions, or they are version-equal with two present, differing
revisions — exactly the truthy outcomes of _conflicting_references when no
consumer reference is passed. -/
def versionOrRevisionIncompatible (p q : ConanFileReference) : Bool :=
  decide (p.copy_clear_rev ≠ q.copy_clear_rev) ||
  (match p.revision, q.revision with
   | some rp, some rn => decide (rp ≠ rn)
   | _, _ => false)

/-- Whether one downstream requirement triggers the requirements loop of
_recurse: its name is found in the closure and the node found there has a
version-or-revision incompatible reference. -/
def reqHit (st : GraphState) (closure : OD) (req : Requirement) : Bool :=
  match odGet closure req.ref.name with
  | none => false
  | some nid =>
    match getNode st nid with
    | none => false
    | some n =>
      match n.ref with
      | none => false
      | some nref => versionOrRevisionIncompatible nref req.ref

/-- Whether one downstream option assignment triggers the options loop of
_recurse: its package name is found in the closure and some assigned option
value differs from the one configured on the node found there. -/
def optHit (st : GraphState) (closure : OD)
    (p : String × List (String × String)) : Bool :=
  match odGet closure p.1 with
  | none => false
  | some nid =>
    match getNode st nid with
    | none => false
    | some n => optionMismatch n.options p.2

/- Concrete material for claim C1. -/

/-- The previously pinned reference of the C1 scenario: c/1.0 at revision r1. -/
def c1Prev : ConanFileReference :=
  { name := "c", version := "1.0", revision := some "r1" }

/-- The alias target of the C1 scenario: c/1.0 pinned at revision r2. -/
def c1Target : ConanFileReference :=
  { name := "c", version := "1.0", revision := some "r2" }

/-- The requested reference of the C1 scenario, whose recipe is an alias. -/
def c1Requested : ConanFileReference := { name := "c", version := "9" }

/-- The consumer node reference of the C1 scenario. -/
def c1Consumer : ConanFileReference := { name := "n", version := "1.0" }

/-- c/9 is an alias whose target pins revision r2 of c/1.0; the target itself
is a plain recipe. -/
def c1Universe : RecipeUniverse :=
  [ (c1Requested, { aliasTarget := some c1Target }),
    (c1Target, {}) ]

/-- A requested reference whose recipe is a plain (non-alias) one. -/
def w1Ref : ConanFileReference := { name := "c", version := "9.9" }

/-- A one-recipe universe for the unchanged-reference branch of C1. -/
def w1Universe : RecipeUniverse := [(w1Ref, {})]

/- Concrete material for claim C2. -/

/-- Reference a/1.0. -/
def sibRefA : ConanFileReference := { name := "a", version := "1.0" }

/-- Reference b/1.0. -/
def sibRefB : ConanFileReference := { name := "b", version := "1.0" }

/-- Reference c/1.0. -/
def sibRefC : ConanFileReference := { name := "c", version := "1.0" }

/-- a requires c; b and c require nothing. -/
def c2Universe : RecipeUniverse :=
  [ (sibRefA, { requires := [{ ref := sibRefC }] }),
    (sibRefB, {}),
    (sibRefC, {}) ]

/-- The root privately requires a, then privately requires b. -/
def c2RootRequires : List Requirement :=
  [{ ref := sibRefA, priv := true }, { ref := sibRefB, priv := true }]

/-- The full expansion of the C2 scenario (no lock). -/
def c2Run : Except ConanError GraphState :=
  load_graph c2Universe "root" c2RootRequires false 30

/-- Name of the node with the given id in the finished C2 graph. -/
def c2NodeName (i : Nat) : Option String :=
  match c2Run with
  | .ok st => (getNode st i).map (fun n => n.name)
  | .error _ => none

/-- public_deps of the node with the given id in the finished C2 graph. -/
def c2PublicDeps (i : Nat) : OD :=
  match c2Run with
  | .ok st => ((getNode st i).map (fun n => n.public_deps)).getD []
  | .error _ => []

/-- The (parent id, child id) pairs of the edges of the finished C2 graph. -/
def c2EdgePairs : List (Nat × Nat) :=
  match c2Run with
  | .ok st => st.edges.map (fun e => (e.1, e.2.1))
  | .error _ => []

/-- The initial state of the C2 expansion, exactly as load_graph builds it
before calling _expand_node. -/
def c2InitState : GraphState :=
  { nodes := [{ id := 0
                name := "root"
                declaredRequires := c2RootRequires
                public_closure := [("root", 0)]
                transitive_closure := [("root", 0)]
                public_deps := [("root", 0)] }]
    nextId := 1 }

/-- The final state of the C2 expansion. -/
def c2FinalState : GraphState :=
  match c2Run with
  | .ok st => st
  | .error _ => {}

/-- Reference c/2.0 of scenario D. -/
def scenDRefC2 : ConanFileReference := { name := "c", version := "2.0" }

/-- Scenario D of the spec: a requires c/1.0, b requires c/2.0. -/
def scenDUniverse : RecipeUniverse :=
  [ (sibRefA, { requires := [{ ref := sibRefC }] }),
    (sibRefB, { requires := [{ ref := scenDRefC2 }] }),
    (sibRefC, {}),
    (scenDRefC2, {}) ]

/-- Scenario D expansion: root requires a privately and b publicly. -/
def scenDRun : Except ConanError GraphState :=
  load_graph scenDUniverse "root"
    [{ ref := sibRefA, priv := true }, { ref := sibRefB }] false 30

/-- The references of the nodes named c in the finished scenario D graph
(or none if the build failed). -/
def scenDCNodes : Option (List (Option ConanFileReference)) :=
  match scenDRun with
  | .ok st => some ((st.nodes.filter (fun n => n.name = "c")).map (fun n => n.ref))
  | .error _ => none

/- Concrete material for claim C5. -/

/-- Reference a/1.0 of the C5 scenario. -/
def c5RefA : ConanFileReference := { name := "a", version := "1.0" }

/-- Reference c/1.0 of the C5 scenario. -/
def c5RefC : ConanFileReference := { name := "c", version := "1.0" }

/-- Reference d/1.0 of the C5 scenario. -/
def c5RefD1 : ConanFileReference := { name := "d", version := "1.0" }

/-- Reference d/2.0 of the C5 scenario. -/
def c5RefD2 : ConanFileReference := { name := "d", version := "2.0" }

/-- a requires c; c requires d/1.0; d/2.0 requires c; d/1.0 requires nothing. -/
def c5Universe : RecipeUniverse :=
  [ (c5RefA, { requires := [{ ref := c5RefC }] }),
    (c5RefC, { requires := [{ ref := c5RefD1 }] }),
    (c5RefD1, {}),
    (c5RefD2, { requires := [{ ref := c5RefC }] }) ]

/-- The C5 expansion: root requires a publicly and d/2.0 privately, under a
graph lock.  Node 3 is the d/1.0 node created below c; the private d/2.0
sibling (node 4) later closes a diamond on c, whose public closure still
holds node 3 under the name d. -/
def c5Run : Except ConanError GraphState :=
  load_graph c5Universe "root"
    [{ ref := c5RefA }, { ref := c5RefD2, priv := true }] true 30

/-- Name of node 3 in the finished C5 graph. -/
def c5Node3Name : Option String :=
  match c5Run with
  | .ok st => (getNode st 3).map (fun n => n.name)
  | .error _ => none

/-- Ancestor set of node 3 in the finished C5 graph. -/
def c5Node3Ancestors : List String :=
  match c5Run with
  | .ok st => ((getNode st 3).map (fun n => n.ancestors)).getD []
  | .error _ => []

/-- A fresh reference with a plain recipe, for the creation-time witness. -/
def wRefNew : ConanFileReference := { name := "w", version := "1.0" }

/-- One-recipe universe for the creation-time witness. -/
def w5Universe : RecipeUniverse := [(wRefNew, {})]

/-- A bare root node. -/
def wRootNode : NodeState := { id := 0, name := "root" }

/-- A one-node graph state. -/
def w5State : GraphState := { nodes := [wRootNode], nextId := 1 }

/-- The state after creating a node for wRefNew under the root. -/
def w5State2 : GraphState :=
  match _create_new_node w5Universe 5 w5State 0 { ref := wRefNew } with
  | .ok p => p.1
  | .error _ => {}

/-- The node just created in w5State2. -/
def w5NewNode : NodeState := (w5State2.nodes.getLast?).getD { id := 0, name := "" }

/- Concrete material for claims C4 and C10. -/

/-- Reference c/1.0 without revision. -/
def w4P : ConanFileReference := { name := "c", version := "1.0" }

/-- Reference c/2.0, version-unequal to w4P. -/
def w4Qdiff : ConanFileReference := { name := "c", version := "2.0" }

/-- Reference c/1.0 at revision r1. -/
def w4Pr : ConanFileReference :=
  { name := "c", version := "1.0", revision := some "r1" }

/-- Reference c/1.0 at revision r2. -/
def w4Qr : ConanFileReference :=
  { name := "c", version := "1.0", revision := some "r2" }

/-- A consumer reference. -/
def w4C : ConanFileReference := { name := "n", version := "1.0" }

/-- Previously pinned p/1.0 at revision r1. -/
def w10Prev : ConanFileReference :=
  { name := "p", version := "1.0", revision := some "r1" }

/-- Requested p/1.0 at revision r2. -/
def w10Req : ConanFileReference :=
  { name := "p", version := "1.0", revision := some "r2" }

/-- A consumer reference for the C10 witness. -/
def w10C : ConanFileReference := { name := "n", version := "1.0" }

/- Concrete material for claims C6 and C7. -/

/-- Head of a cached alias chain. -/
def c6RefA : ConanFileReference := { name := "p", version := "latest" }

/-- Middle of a cached alias chain. -/
def c6RefB : ConanFileReference := { name := "p", version := "stable" }

/-- Tail of a cached alias chain. -/
def c6RefC : ConanFileReference := { name := "p", version := "3.0" }

/-- A cached alias table holding the chain p/latest to p/stable to p/3.0,
exactly the table _resolve_recipe leaves behind after loading such a chain. -/
def c6Table : AliasTable := [(c6RefA, c6RefB), (c6RefB, c6RefC)]

/-- Head of the C7 alias chain. -/
def aLatest : ConanFileReference := { name := "a", version := "latest" }

/-- Middle of the C7 alias chain. -/
def aStable : ConanFileReference := { name := "a", version := "stable" }

/-- Final concrete target of the C7 alias chain. -/
def aFinal : ConanFileReference := { name := "a", version := "3.0" }

/-- a/latest is an alias for a/stable, itself an alias for the concrete
a/3.0. -/
def aliasChainUniverse : RecipeUniverse :=
  [ (aLatest, { aliasTarget := some aStable }),
    (aStable, { aliasTarget := some aFinal }),
    (aFinal, {}) ]

/- Concrete material for claims C8 and C9. -/

/-- Scenario E graph nodes: x and y already carry a package id, z does not. -/
def scenENodes : List NodeState :=
  [ { id := 1, name := "x", package_id := some "px" },
    { id := 2, name := "y", package_id := some "py" },
    { id := 3, name := "z" } ]

/-- Reference x/1.0. -/
def w9Ref : ConanFileReference := { name := "x", version := "1.0" }

/-- Reference x/2.0. -/
def w9Ref2 : ConanFileReference := { name := "x", version := "2.0" }


/- Supporting lemmas. -/

theorem mem_listUnion {x : String} {a b : List String} :
    x ∈ listUnion a b ↔ x ∈ a ∨ x ∈ b := by
  simp only [listUnion, List.mem_append, List.mem_filter, decide_eq_true_eq]
  constructor
  · rintro (h | ⟨h, _⟩)
    · exact Or.inl h
    · exact Or.inr h
  · intro h
    rcases h with h | h
    · exact Or.inl h
    · by_cases ha : x ∈ a
      · exact Or.inl ha
      · exact Or.inr ⟨h, ha⟩

theorem conflicting_version_unequal {p q : ConanFileReference}
    (h : p.copy_clear_rev ≠ q.copy_clear_rev) :
    (∀ c, _conflicting_references p q (some c) = .ok (.conflictMsg ⟨c, q, p⟩)) ∧
    _conflicting_references p q none = .ok .conflictTrue := by
  constructor
  · intro c
    simp only [_conflicting_references, if_pos h]
  · simp only [_conflicting_references, if_pos h]

theorem conflicting_revision_mismatch {p q : ConanFileReference}
    (h : p.copy_clear_rev = q.copy_clear_rev) {rp rn : String}
    (hp : p.revision = some rp) (hq : q.revision = some rn) (hne : rp ≠ rn) :
    (∀ c, _conflicting_references p q (some c) = .error ⟨c, q⟩) ∧
    _conflicting_references p q none = .ok .conflictTrue := by
  constructor
  · intro c
    simp only [_conflicting_references, if_neg (not_not_intro h), hp, hq, if_pos hne]
  · simp only [_conflicting_references, if_neg (not_not_intro h), hp, hq, if_pos hne]

theorem conflicting_no_conflict {p q : ConanFileReference}
    (h : p.copy_clear_rev = q.copy_clear_rev)
    (h2 : p.revision = none ∨ q.revision = none ∨ p.revision = q.revision) :
    ∀ oc, _conflicting_references p q oc = .ok .noConflict := by
  intro oc
  simp only [_conflicting_references, if_neg (not_not_intro h)]
  cases hp : p.revision with
  | none => rfl
  | some rp =>
    cases hq : q.revision with
    | none => rfl
    | some rn =>
      have : rp = rn := by
        rcases h2 with h2 | h2 | h2
        · rw [hp] at h2; cases h2
        · rw [hq] at h2; cases h2
        · rw [hp, hq] at h2; exact Option.some.inj h2
      simp [this]

theorem dcc_no_conflict {u : RecipeUniverse} {fuel : Nat}
    {previous_ref : ConanFileReference} {node_ref : Option ConanFileReference}
    {require : Requirement} {aliased : AliasTable}
    (h : _conflicting_references previous_ref
      (resolveCachedAliasOne aliased require).ref node_ref = .ok .noConflict) :
    diamond_conflict_check u fuel previous_ref node_ref require aliased =
      .ok ⟨resolveCachedAliasOne aliased require, aliased, 0⟩ := by
  simp only [diamond_conflict_check, h, liftConflict]

theorem dcc_first_revision {u : RecipeUniverse} {fuel : Nat}
    {previous_ref : ConanFileReference} {node_ref : Option ConanFileReference}
    {require : Requirement} {aliased : AliasTable} {m : RevisionConflictMsg}
    (h : _conflicting_references previous_ref
      (resolveCachedAliasOne aliased require).ref node_ref = .error m) :
    diamond_conflict_check u fuel previous_ref node_ref require aliased =
      .error (.revisionConflict m) := by
  simp only [diamond_conflict_check, h, liftConflict]

theorem dcc_resolve_error {u : RecipeUniverse} {fuel : Nat}
    {previous_ref : ConanFileReference} {node_ref : Option ConanFileReference}
    {require : Requirement} {aliased : AliasTable} {m : ConflictMsg} {e : ConanError}
    (h : _conflicting_references previous_ref
      (resolveCachedAliasOne aliased require).ref node_ref = .ok (.conflictMsg m))
    (hres : _resolve_recipe u fuel (resolveCachedAliasOne aliased require) aliased none
      = .error e) :
    diamond_conflict_check u fuel previous_ref node_ref require aliased = .error e := by
  simp only [diamond_conflict_check, h, liftConflict, hres]

theorem dcc_unchanged {u : RecipeUniverse} {fuel : Nat}
    {previous_ref : ConanFileReference} {node_ref : Option ConanFileReference}
    {require : Requirement} {aliased : AliasTable} {m : ConflictMsg}
    {res : ResolvedRecipe}
    (h : _conflicting_references previous_ref
      (resolveCachedAliasOne aliased require).ref node_ref = .ok (.conflictMsg m))
    (hres : _resolve_recipe u fuel (resolveCachedAliasOne aliased require) aliased none
      = .ok res)
    (heq : res.requirement.ref = (resolveCachedAliasOne aliased require).ref) :
    diamond_conflict_check u fuel previous_ref node_ref require aliased =
      .error (.referenceConflict m) := by
  simp only [diamond_conflict_check, h, liftConflict, hres, if_pos heq.symm,
    raisedConflict]

theorem dcc_changed {u : RecipeUniverse} {fuel : Nat}
    {previous_ref : ConanFileReference} {node_ref : Option ConanFileReference}
    {require : Requirement} {aliased : AliasTable} {m : ConflictMsg}
    {res : ResolvedRecipe}
    (h : _conflicting_references previous_ref
      (resolveCachedAliasOne aliased require).ref node_ref = .ok (.conflictMsg m))
    (hres : _resolve_recipe u fuel (resolveCachedAliasOne aliased require) aliased none
      = .ok res)
    (hne : res.requirement.ref ≠ (resolveCachedAliasOne aliased require).ref) :
    diamond_conflict_check u fuel previous_ref node_ref require aliased =
      (match liftConflict (_conflicting_references previous_ref res.requirement.ref
          node_ref) with
       | .error e => .error e
       | .ok .noConflict => .ok ⟨res.requirement, res.aliased, 1⟩
       | .ok conflict2 => .error (raisedConflict conflict2)) := by
  simp only [diamond_conflict_check, h, liftConflict, hres, if_neg (Ne.symm hne)]

theorem conflicting_none_eq (p q : ConanFileReference) :
    _conflicting_references p q none =
      .ok (if versionOrRevisionIncompatible p q then .conflictTrue else .noConflict) := by
  by_cases h : p.copy_clear_rev = q.copy_clear_rev
  · simp only [_conflicting_references, versionOrRevisionIncompatible,
      if_neg (not_not_intro h), h]
    cases hp : p.revision with
    | none => simp [hp]
    | some rp =>
      cases hq : q.revision with
      | none => simp [hp, hq]
      | some rn =>
        by_cases hr : rp = rn
        · simp [hp, hq, hr]
        · simp [hp, hq, hr]
  · simp only [_conflicting_references, versionOrRevisionIncompatible, if_pos h]
    simp [h]

theorem recurse_requires_eq (st : GraphState) (closure : OD) :
    ∀ reqs, _recurse_requires st closure reqs = .ok (reqs.any (reqHit st closure)) := by
  intro reqs
  induction reqs with
  | nil => rfl
  | cons req rest ih =>
    simp only [_recurse_requires, List.any_cons]
    cases h1 : odGet closure req.ref.name with
    | none => simp [reqHit, h1, ih]
    | some nid =>
      cases h2 : getNode st nid with
      | none => simp [reqHit, h1, h2, ih]
      | some n =>
        cases h3 : n.ref with
        | none => simp [reqHit, h1, h2, h3, ih]
        | some nref =>
          simp only [h1, h2, h3, conflicting_none_eq]
          by_cases h4 : versionOrRevisionIncompatible nref req.ref = true
          · simp [reqHit, h1, h2, h3, h4]
          · simp only [Bool.not_eq_true] at h4
            simp [reqHit, h1, h2, h3, h4, ih]

theorem recurse_options_eq (st : GraphState) (closure : OD) :
    ∀ opts, _recurse_options st closure opts = opts.any (optHit st closure) := by
  intro opts
  induction opts with
  | nil => rfl
  | cons p rest ih =>
    obtain ⟨pkg, vals⟩ := p
    simp only [_recurse_options, List.any_cons]
    cases h1 : odGet closure pkg with
    | none => simp [optHit, h1, ih]
    | some nid =>
      cases h2 : getNode st nid with
      | none => simp [optHit, h1, h2, ih]
      | some n =>
        by_cases h3 : optionMismatch n.options vals = true
        · simp [optHit, h1, h2, h3]
        · simp only [Bool.not_eq_true] at h3
          simp [optHit, h1, h2, h3, ih]

theorem shouldReexpand_eq (graph_lock : Bool) (st : GraphState) (closure : OD)
    (new_reqs : List Requirement)
    (new_options : List (String × List (String × String))) :
    shouldReexpand graph_lock st closure new_reqs new_options =
      .ok (!graph_lock && (new_reqs.any (reqHit st closure) ||
        new_options.any (optHit st closure))) := by
  cases graph_lock with
  | true => rfl
  | false =>
    simp only [shouldReexpand, _recurse, Bool.not_false, Bool.true_and]
    rw [recurse_requires_eq]
    by_cases h : new_reqs.any (reqHit st closure) = true
    · simp [h]
    · simp only [Bool.not_eq_true] at h
      simp [h, recurse_options_eq]

theorem reqHit_iff (st : GraphState) (closure : OD) (req : Requirement) :
    reqHit st closure req = true ↔
      ∃ nid, odGet closure req.ref.name = some nid ∧
        ∃ n, getNode st nid = some n ∧
          ∃ nref, n.ref = some nref ∧
            versionOrRevisionIncompatible nref req.ref = true := by
  cases h1 : odGet closure req.ref.name with
  | none => simp [reqHit, h1]
  | some nid =>
    cases h2 : getNode st nid with
    | none => simp [reqHit, h1, h2]
    | some n =>
      cases h3 : n.ref with
      | none => simp [reqHit, h1, h2, h3]
      | some nref => simp [reqHit, h1, h2, h3]

theorem optHit_iff (st : GraphState) (closure : OD)
    (p : String × List (String × String)) :
    optHit st closure p = true ↔
      ∃ nid, odGet closure p.1 = some nid ∧
        ∃ n, getNode st nid = some n ∧ optionMismatch n.options p.2 = true := by
  cases h1 : odGet closure p.1 with
  | none => simp [optHit, h1]
  | some nid =>
    cases h2 : getNode st nid with
    | none => simp [optHit, h1, h2]
    | some n => simp [optHit, h1, h2]

theorem sortKeyInsert_key_false {α : Type} (key : α → Bool) (x : α)
    (h : key x = false) (l : List α) : sortKeyInsert key x l = x :: l := by
  cases l with
  | nil => rfl
  | cons y ys => simp [sortKeyInsert, h]

theorem sortKeyInsert_key_true_over {α : Type} (key : α → Bool) (x : α)
    (h : key x = true) :
    ∀ F T : List α, (∀ y ∈ F, key y = false) →
      (T = [] ∨ ∃ t ts, T = t :: ts ∧ key t = true) →
      sortKeyInsert key x (F ++ T) = F ++ x :: T := by
  intro F
  induction F with
  | nil =>
    intro T _ hT
    rcases hT with rfl | ⟨t, ts, rfl, ht⟩
    · rfl
    · simp [sortKeyInsert, h, ht]
  | cons y F ih =>
    intro T hF hT
    have hy : key y = false := hF y (List.mem_cons_self y F)
    have ih2 := ih T (fun z hz => hF z (List.mem_cons_of_mem y hz)) hT
    simp [sortKeyInsert, h, hy, ih2]

theorem pyStableSortByKey_partition {α : Type} (key : α → Bool) (l : List α) :
    pyStableSortByKey key l =
      l.filter (fun x => !(key x)) ++ l.filter key := by
  induction l with
  | nil => rfl
  | cons x xs ih =>
    simp only [pyStableSortByKey, List.foldr_cons] at *
    rw [ih]
    by_cases hx : key x = true
    · rw [sortKeyInsert_key_true_over key x hx _ _
        (fun y hy => by
          have := List.mem_filter.mp hy
          simpa using this.2)
        (by
          cases hT : xs.filter key with
          | nil => exact Or.inl rfl
          | cons t ts =>
            refine Or.inr ⟨t, ts, rfl, ?_⟩
            have : t ∈ xs.filter key := by rw [hT]; exact List.mem_cons_self t ts
            exact (List.mem_filter.mp this).2)]
      simp [List.filter_cons, hx]
    · simp only [Bool.not_eq_true] at hx
      rw [sortKeyInsert_key_false key x hx]
      simp [List.filter_cons, hx]

theorem create_new_node_ancestors (u : RecipeUniverse) (fuel : Nat)
    (st : GraphState) (currentId : Nat) (req : Requirement) (st2 : GraphState)
    (newId : Nat) (cur : NodeState)
    (h1 : getNode st currentId = some cur)
    (hok : _create_new_node u fuel st currentId req = .ok (st2, newId)) :
    ∀ new_node, st2.nodes = st.nodes ++ [new_node] →
      new_node.ancestors = listUnion cur.ancestors [cur.name] := by
  intro new_node hnodes
  simp only [_create_new_node, h1] at hok
  cases hres : _resolve_recipe u fuel req st.aliased none with
  | error e => rw [hres] at hok; cases hok
  | ok res =>
    rw [hres] at hok
    simp only [Except.ok.injEq, Prod.mk.injEq] at hok
    obtain ⟨hst2, _⟩ := hok
    subst hst2
    simp only at hnodes
    have h3 := List.append_cancel_left hnodes
    injection h3 with h4 _
    rw [← h4]

theorem get_node_requirements_locked (st : GraphState) (nodeId : Nat)
    (down_reqs : List Requirement) :
    ∃ r, _get_node_requirements st nodeId down_reqs true = .ok r := by
  cases h : getNode st nodeId with
  | none =>
    simp only [_get_node_requirements, h]
    exact ⟨_, rfl⟩
  | some node =>
    simp only [_get_node_requirements, h]
    exact ⟨_, rfl⟩

theorem get_node_requirements_nondeterminism (st : GraphState) (nodeId : Nat)
    (down_reqs : List Requirement) (node : NodeState) (r0 : List Requirement)
    (h1 : getNode st nodeId = some node)
    (h2 : node.evaluatedRequires = some r0)
    (hne : _resolve_cached_alias (updateRequiresDownstream
        (_resolve_cached_alias node.declaredRequires st.aliased) down_reqs).1
        st.aliased ≠ r0) :
    _get_node_requirements st nodeId down_reqs false =
      .error (.nondeterministicRequirements node.ref r0
        (_resolve_cached_alias (updateRequiresDownstream
          (_resolve_cached_alias node.declaredRequires st.aliased) down_reqs).1
          st.aliased)) := by
  simp only [_get_node_requirements, h1, Bool.false_eq_true, if_false,
    checkEvaluatedRequires, h2, if_pos hne]


/- Claim C1. -/

/-- Claim C1 counterexample: closing a diamond where the previously pinned
reference is c/1.0 at revision r1 and the requested c/9 re-resolves through an
alias to c/1.0 at revision r2.  The first check is a version conflict, the
alias-driven re-resolution changes the reference, the recheck still conflicts
— yet the failure is the revision-conflict error naming only the consumer and
the re-resolved reference, not the claimed ReferenceConflict naming consumer,
requested and previously pinned references. -/
theorem claim_C1_counterexample :
    diamond_conflict_check c1Universe 10 c1Prev (some c1Consumer)
      { ref := c1Requested } [] =
      .error (.revisionConflict ⟨c1Consumer, c1Target⟩) := by rfl

/-- Claim C1 (amended): in the diamond-closing conflict step, after resolving
cached aliases, a first-check revision conflict raises immediately with no
re-resolution; a first-check no-conflict proceeds with zero re-resolutions;
a first-check version conflict triggers exactly one re-resolution of the
recipe, after which: an unchanged reference raises the ReferenceConflict
naming the consumer, the requested reference and the previously pinned
reference; a changed reference is rechecked, a version-level recheck conflict
raising the ReferenceConflict naming the consumer, the re-resolved reference
and the previously pinned reference, while a revision-level recheck conflict
raises the RevisionConflict naming only the consumer and the re-resolved
reference; otherwise the step succeeds with the rewritten requirement. -/
theorem claim_C1_theorem :
    ∀ (u : RecipeUniverse) (fuel : Nat) (previous_ref : ConanFileReference)
      (cr : ConanFileReference) (require : Requirement) (aliased : AliasTable),
      (_conflicting_references previous_ref
          (resolveCachedAliasOne aliased require).ref (some cr) = .ok .noConflict →
        diamond_conflict_check u fuel previous_ref (some cr) require aliased =
          .ok ⟨resolveCachedAliasOne aliased require, aliased, 0⟩) ∧
      (∀ m, _conflicting_references previous_ref
          (resolveCachedAliasOne aliased require).ref (some cr) = .error m →
        diamond_conflict_check u fuel previous_ref (some cr) require aliased =
          .error (.revisionConflict m)) ∧
      (previous_ref.copy_clear_rev ≠
          (resolveCachedAliasOne aliased require).ref.copy_clear_rev →
        (∀ e, _resolve_recipe u fuel (resolveCachedAliasOne aliased require)
            aliased none = .error e →
          diamond_conflict_check u fuel previous_ref (some cr) require aliased =
            .error e) ∧
        (∀ res, _resolve_recipe u fuel (resolveCachedAliasOne aliased require)
            aliased none = .ok res →
          (res.requirement.ref = (resolveCachedAliasOne aliased require).ref →
            diamond_conflict_check u fuel previous_ref (some cr) require aliased =
              .error (.referenceConflict
                ⟨cr, (resolveCachedAliasOne aliased require).ref, previous_ref⟩)) ∧
          (res.requirement.ref ≠ (resolveCachedAliasOne aliased require).ref →
            (previous_ref.copy_clear_rev ≠ res.requirement.ref.copy_clear_rev →
              diamond_conflict_check u fuel previous_ref (some cr) require aliased =
                .error (.referenceConflict
                  ⟨cr, res.requirement.ref, previous_ref⟩)) ∧
            (previous_ref.copy_clear_rev = res.requirement.ref.copy_clear_rev →
              (∀ rp rn, previous_ref.revision = some rp →
                res.requirement.ref.revision = some rn → rp ≠ rn →
                diamond_conflict_check u fuel previous_ref (some cr) require aliased =
                  .error (.revisionConflict ⟨cr, res.requirement.ref⟩)) ∧
              ((previous_ref.revision = none ∨ res.requirement.ref.revision = none ∨
                  previous_ref.revision = res.requirement.ref.revision) →
                diamond_conflict_check u fuel previous_ref (some cr) require aliased =
                  .ok ⟨res.requirement, res.aliased, 1⟩))))) := by
  intro u fuel previous_ref cr require aliased
  refine ⟨fun h => dcc_no_conflict h, fun m h => dcc_first_revision h, fun hv => ?_⟩
  have hfirst : _conflicting_references previous_ref
      (resolveCachedAliasOne aliased require).ref (some cr) =
      .ok (.conflictMsg ⟨cr, (resolveCachedAliasOne aliased require).ref,
        previous_ref⟩) := (conflicting_version_unequal hv).1 cr
  refine ⟨fun e he => dcc_resolve_error hfirst he, fun res hres =>
    ⟨fun heq => dcc_unchanged hfirst hres heq, fun hne => ⟨?_, fun hv2 => ⟨?_, ?_⟩⟩⟩⟩
  · intro hv2
    have hre := (conflicting_version_unequal hv2).1 cr
    rw [dcc_changed hfirst hres hne, hre]
    rfl
  · intro rp rn hp hq hne2
    have hre := (conflicting_revision_mismatch hv2 hp hq hne2).1 cr
    rw [dcc_changed hfirst hres hne, hre]
    rfl
  · intro hrev
    have hre := conflicting_no_conflict hv2 hrev (some cr)
    rw [dcc_changed hfirst hres hne, hre]
    rfl

/-- Claim C1 witness: the unchanged-reference branch at a concrete input —
a version conflict whose recipe is no alias fails with the ReferenceConflict
naming the consumer, the requested reference and the pinned reference. -/
theorem claim_C1_witness :
    diamond_conflict_check w1Universe 10 c1Prev (some c1Consumer)
      { ref := w1Ref } [] =
      .error (.referenceConflict ⟨c1Consumer, w1Ref, c1Prev⟩) :=
  (((claim_C1_theorem w1Universe 10 c1Prev c1Consumer { ref := w1Ref } []).2.2
      (by decide)).2 ⟨w1Ref, {}, { ref := w1Ref }, []⟩ (by rfl)).1 (by rfl)

/-- A node found under id i carries that id. -/
theorem getNode_id {st : GraphState} {i : Nat} {n : NodeState}
    (h : getNode st i = some n) : n.id = i := by
  have := List.find?_some h
  simpa using this

/-- find? after a map searches the original list under the composed predicate. -/
theorem find?_map_comm {α β : Type} (p : β → Bool) (f : α → β) :
    ∀ l : List α, (l.map f).find? p = (l.find? (fun a => p (f a))).map f := by
  intro l
  induction l with
  | nil => rfl
  | cons a l ih =>
    simp only [List.map_cons, List.find?_cons]
    cases p (f a) <;> simp [ih]

/-- find? only depends on the predicate extensionally. -/
theorem find?_ext {α : Type} {p q : α → Bool} (h : ∀ a, p a = q a) :
    ∀ l : List α, l.find? p = l.find? q := by
  intro l
  induction l with
  | nil => rfl
  | cons a l ih =>
    simp only [List.find?_cons, h a]
    cases q a <;> simp [ih]

/-- A hit of find? in the first part of an append is a hit of the whole. -/
theorem find?_append_some {α : Type} {p : α → Bool} {a : α} :
    ∀ {l : List α} (l2 : List α), l.find? p = some a → (l ++ l2).find? p = some a := by
  intro l l2 h
  rw [List.find?_append, h]
  rfl

/-- Node lookup after an id-preserving node update. -/
theorem getNode_updNode {st : GraphState} {j : Nat} {f : NodeState → NodeState}
    (hid : ∀ n, (f n).id = n.id) (i : Nat) :
    getNode (updNode st j f) i =
      (getNode st i).map (fun n => if n.id = j then f n else n) := by
  unfold getNode updNode
  rw [find?_map_comm]
  congr 1
  refine find?_ext ?_ st.nodes
  intro n
  by_cases hm : n.id = j <;> simp [hm, hid]

theorem pdFixedBelow_refl (k : Nat) (st : GraphState) : pdFixedBelow k st st :=
  fun _ _ n h => ⟨n, h, rfl⟩

theorem pdFixedBelow_trans {k : Nat} {a b c : GraphState}
    (h1 : pdFixedBelow k a b) (h2 : pdFixedBelow k b c) : pdFixedBelow k a c := by
  intro i hi n h
  obtain ⟨n2, h2a, h2b⟩ := h1 i hi n h
  obtain ⟨n3, h3a, h3b⟩ := h2 i hi n2 h2a
  exact ⟨n3, h3a, h3b.trans h2b⟩

theorem pdFixedBelow_mono {k k2 : Nat} (h : k2 ≤ k) {a b : GraphState}
    (hp : pdFixedBelow k a b) : pdFixedBelow k2 a b :=
  fun i hi n hn => hp i (lt_of_lt_of_le hi h) n hn

theorem stepOK_refl (st : GraphState) : stepOK st st :=
  ⟨rfl, fun h => h, fun k => pdFixedBelow_refl k st⟩

theorem stepOK_trans {a b c : GraphState} (h1 : stepOK a b) (h2 : stepOK b c) :
    stepOK a c := by
  obtain ⟨hn1, hb1, hp1⟩ := h1
  obtain ⟨hn2, hb2, hp2⟩ := h2
  exact ⟨hn2.trans hn1, fun h => hb2 (hb1 h),
    fun k => pdFixedBelow_trans (hp1 k) (hp2 k)⟩

theorem idsBounded_updNode {st : GraphState} {j : Nat} {f : NodeState → NodeState}
    (hid : ∀ n, (f n).id = n.id) (h : idsBounded st) : idsBounded (updNode st j f) := by
  intro n hn
  simp only [updNode, List.mem_map] at hn
  obtain ⟨m, hm, rfl⟩ := hn
  by_cases hmj : m.id = j
  · simpa [hmj, hid] using h m hm
  · simpa [hmj] using h m hm

/-- An id- and public_deps-preserving node update is a stepOK transformation. -/
theorem stepOK_updNode {st : GraphState} {j : Nat} {f : NodeState → NodeState}
    (hid : ∀ n, (f n).id = n.id)
    (hpd : ∀ n, (f n).public_deps = n.public_deps) :
    stepOK st (updNode st j f) := by
  refine ⟨rfl, idsBounded_updNode hid, ?_⟩
  intro k i hi n h
  rw [getNode_updNode hid i, h]
  refine ⟨_, rfl, ?_⟩
  by_cases hnj : n.id = j
  · simp [hnj, hpd]
  · simp [hnj]

theorem stepOK_connect (st : GraphState) (a b : Nat) :
    stepOK st (connect_closure st a b) := by
  unfold connect_closure
  cases h : getNode st b with
  | none => exact stepOK_refl st
  | some other =>
    dsimp only
    refine stepOK_trans ?_ (stepOK_updNode (fun n => rfl) (fun n => rfl))
    exact stepOK_updNode (fun n => rfl) (fun n => rfl)

theorem stepOK_foldl {β : Type} {step : GraphState → β → GraphState}
    (h : ∀ s x, stepOK s (step s x)) :
    ∀ (l : List β) (s : GraphState), stepOK s (l.foldl step s) := by
  intro l
  induction l with
  | nil => intro s; exact stepOK_refl s
  | cons x l ih => intro s; exact stepOK_trans (h s x) (ih (step s x))

theorem stepBelow_of_stepOK {k : Nat} {a b : GraphState} (h : stepOK a b) :
    stepBelow k a b :=
  ⟨h.1, h.2.1, h.2.2 k⟩

theorem stepBelow_trans {k : Nat} {a b c : GraphState}
    (h1 : stepBelow k a b) (h2 : stepBelow k b c) : stepBelow k a c :=
  ⟨h2.1.trans h1.1, fun h => h2.2.1 (h1.2.1 h),
   pdFixedBelow_trans h1.2.2 h2.2.2⟩

/-- Updating a node whose id is at least k leaves all public_deps below k. -/
theorem stepBelow_updNode_ge {st : GraphState} {j : Nat} {f : NodeState → NodeState}
    (hid : ∀ n, (f n).id = n.id) {k : Nat} (hk : k ≤ j) :
    stepBelow k st (updNode st j f) := by
  refine ⟨rfl, idsBounded_updNode hid, ?_⟩
  intro i hi n h
  rw [getNode_updNode hid i, h]
  refine ⟨_, rfl, ?_⟩
  have hni : n.id = i := getNode_id h
  have hne : ¬(n.id = j) := by omega
  simp [hne]

theorem init_closures_stepOK (st : GraphState) (newId : Nat) (name : String) :
    stepOK st (init_closures st newId name) := by
  unfold init_closures
  refine stepOK_updNode ?_ ?_ <;> exact fun n => rfl

theorem record_transitive_stepOK (st : GraphState) (nodeId newId : Nat) (name : String) :
    stepOK st (record_transitive st nodeId newId name) := by
  unfold record_transitive
  refine stepOK_updNode ?_ ?_ <;> exact fun n => rfl

/-- Assigning public_deps to the node newId leaves the public_deps of every
node with id below newId untouched. -/
theorem assign_public_deps_stepBelow (st : GraphState) (nodeId newId : Nat)
    (require : Requirement) (name : String) {k : Nat} (hk : k ≤ newId) :
    stepBelow k st (assign_public_deps st nodeId newId require name) := by
  unfold assign_public_deps
  split <;> (refine stepBelow_updNode_ge ?_ hk; exact fun n => rfl)

theorem connect_dependents_stepOK (st : GraphState) (nodeId newId : Nat) :
    stepOK st (connect_dependents st nodeId newId) := by
  unfold connect_dependents
  refine stepOK_foldl ?_ _ _
  intro s x
  exact stepOK_connect s x newId

/-- Attaching a freshly created node changes the public_deps of no node with
id below newId. -/
theorem attach_new_node_stepBelow (st : GraphState) (nodeId newId : Nat)
    (require : Requirement) (name : String) {k : Nat} (hk : k ≤ newId) :
    stepBelow k st (attach_new_node st nodeId newId require name) := by
  simp only [attach_new_node]
  split
  · exact stepBelow_trans
      (stepBelow_of_stepOK (stepOK_trans (init_closures_stepOK st newId name)
        (stepOK_connect (init_closures st newId name) nodeId newId)))
      (assign_public_deps_stepBelow
        (connect_closure (init_closures st newId name) nodeId newId)
        nodeId newId require name hk)
  · exact stepBelow_trans
      (stepBelow_trans
        (stepBelow_trans
          (stepBelow_of_stepOK (stepOK_trans (init_closures_stepOK st newId name)
            (stepOK_connect (init_closures st newId name) nodeId newId)))
          (stepBelow_of_stepOK (record_transitive_stepOK
            (connect_closure (init_closures st newId name) nodeId newId)
            nodeId newId name)))
        (assign_public_deps_stepBelow
          (record_transitive (connect_closure (init_closures st newId name) nodeId newId)
            nodeId newId name)
          nodeId newId require name hk))
      (stepBelow_of_stepOK (connect_dependents_stepOK
        (assign_public_deps
          (record_transitive (connect_closure (init_closures st newId name) nodeId newId)
            nodeId newId name)
          nodeId newId require name)
        nodeId newId))

theorem merge_transitive_stepOK (st : GraphState) (nodeId newId : Nat) :
    stepOK st (merge_transitive st nodeId newId) := by
  unfold merge_transitive
  refine stepOK_updNode ?_ ?_ <;> exact fun n => rfl

theorem stepOK_setAliased (st : GraphState) (a : AliasTable) :
    stepOK st { st with aliased := a } :=
  ⟨rfl, fun h => h, fun _ _ _ n h => ⟨n, h, rfl⟩⟩

theorem union_ancestors_stepOK (st : GraphState) (prevId : Nat) (u : List String) :
    stepOK st (union_ancestors st prevId u) := by
  unfold union_ancestors
  refine stepOK_foldl ?_ _ _
  intro s p
  refine stepOK_updNode ?_ ?_ <;> exact fun n => rfl

theorem record_edge_stepOK (st : GraphState) (nodeId prevId : Nat) (require : Requirement) :
    stepOK st (record_edge st nodeId prevId require) :=
  ⟨rfl, fun h => h, fun _ _ _ n h => ⟨n, h, rfl⟩⟩

theorem merge_tc_node_stepOK (st : GraphState) (nodeId : Nat) (ptc : OD) :
    stepOK st (merge_tc_node st nodeId ptc) := by
  unfold merge_tc_node
  refine stepOK_updNode ?_ ?_ <;> exact fun n => rfl

theorem connect_tc_entries_stepOK (st : GraphState) (nodeId : Nat) (ptc : OD) :
    stepOK st (connect_tc_entries st nodeId ptc) := by
  unfold connect_tc_entries
  refine stepOK_foldl ?_ _ _
  intro s p
  dsimp only
  refine stepOK_trans (stepOK_connect s nodeId p.2) ?_
  refine stepOK_foldl ?_ _ _
  intro a d
  exact stepOK_connect a d p.2

theorem merge_previous_transitive_stepOK (st : GraphState) (nodeId prevId : Nat) :
    stepOK st (merge_previous_transitive st nodeId prevId) := by
  unfold merge_previous_transitive
  exact stepOK_trans
    (merge_tc_node_stepOK st nodeId
      (((getNode st prevId).map (fun n => n.transitive_closure)).getD []))
    (connect_tc_entries_stepOK
      (merge_tc_node st nodeId
        (((getNode st prevId).map (fun n => n.transitive_closure)).getD []))
      nodeId
      (((getNode st prevId).map (fun n => n.transitive_closure)).getD []))

/-- Closing a diamond never touches any node's public_deps. -/
theorem diamond_connect_stepOK (st : GraphState) (nodeId prevId : Nat)
    (require : Requirement) (anc : List String) (nm : String) :
    stepOK st (diamond_connect st nodeId prevId require anc nm) := by
  simp only [diamond_connect]
  have h3 : stepOK st (record_edge (connect_closure
      (union_ancestors st prevId (listUnion anc [nm])) nodeId prevId)
      nodeId prevId require) :=
    stepOK_trans
      (stepOK_trans (union_ancestors_stepOK st prevId (listUnion anc [nm]))
        (stepOK_connect (union_ancestors st prevId (listUnion anc [nm])) nodeId prevId))
      (record_edge_stepOK (connect_closure
        (union_ancestors st prevId (listUnion anc [nm])) nodeId prevId)
        nodeId prevId require)
  split
  · exact h3
  · exact stepOK_trans h3 (merge_previous_transitive_stepOK _ nodeId prevId)

/-- _create_new_node hands out the current id counter as the new node's id,
advances the counter by one, preserves id boundedness, and leaves the
public_deps of every pre-existing node untouched. -/
theorem create_new_node_inv {u : RecipeUniverse} {fuel : Nat} {st : GraphState}
    {currentId : Nat} {req : Requirement} {st2 : GraphState} {newId : Nat}
    (h : _create_new_node u fuel st currentId req = .ok (st2, newId)) :
    newId = st.nextId ∧ st2.nextId = st.nextId + 1 ∧
    (idsBounded st → idsBounded st2) ∧ ∀ k, pdFixedBelow k st st2 := by
  unfold _create_new_node at h
  cases hc : getNode st currentId with
  | none => rw [hc] at h; exact absurd h (by simp)
  | some current =>
    rw [hc] at h
    cases hr : _resolve_recipe u fuel req st.aliased none with
    | error e =>
      simp only [hr] at h
      exact absurd h (by simp)
    | ok res =>
      simp only [hr] at h
      obtain ⟨h1, h2⟩ := Prod.mk.injEq .. ▸ (Except.ok.injEq .. ▸ h)
      subst h2
      constructor
      · rfl
      constructor
      · rw [← h1]
      constructor
      · intro hb n hn
        rw [← h1] at hn ⊢
        simp only [List.mem_append, List.mem_singleton] at hn
        cases hn with
        | inl hm => exact Nat.lt_succ_of_lt (hb n hm)
        | inr he => subst he; exact Nat.lt_succ_self _
      · intro k i hi n hn
        refine ⟨n, ?_, rfl⟩
        rw [← h1]
        exact find?_append_some _ hn

/-- _get_node_requirements only rewrites the node's requirement fields: it
keeps the id counter and every node's public_deps. -/
theorem gnr_stepOK {st : GraphState} {nodeId : Nat} {down : List Requirement}
    {gl : Bool} {st2 : GraphState}
    {no : List (String × List (String × String))} {nr : Option (List Requirement)}
    (h : _get_node_requirements st nodeId down gl = .ok (st2, no, nr)) :
    stepOK st st2 := by
  unfold _get_node_requirements at h
  cases hn : getNode st nodeId with
  | none =>
    rw [hn] at h
    obtain ⟨h1, _⟩ := Prod.mk.injEq .. ▸ (Except.ok.injEq .. ▸ h)
    rw [← h1]
    exact stepOK_refl st
  | some node =>
    rw [hn] at h
    dsimp only at h
    cases gl with
    | true =>
      rw [if_pos rfl] at h
      obtain ⟨h1, _⟩ := Prod.mk.injEq .. ▸ (Except.ok.injEq .. ▸ h)
      rw [← h1]
      refine stepOK_updNode ?_ ?_ <;> exact fun n => rfl
    | false =>
      rw [if_neg Bool.false_ne_true] at h
      rcases hud : updateRequiresDownstream
          (_resolve_cached_alias node.declaredRequires st.aliased) down with ⟨own2, prop⟩
      rw [hud] at h
      dsimp only at h
      cases hev : checkEvaluatedRequires node.ref node.evaluatedRequires
          (_resolve_cached_alias own2 st.aliased) with
      | error e => rw [hev] at h; exact absurd h (by simp)
      | ok snapshot =>
        rw [hev] at h
        dsimp only at h
        obtain ⟨h1, _⟩ := Prod.mk.injEq .. ▸ (Except.ok.injEq .. ▸ h)
        rw [← h1]
        refine stepOK_updNode ?_ ?_ <;> exact fun n => rfl

/-- diamond_close_step keeps the id counter and every node's public_deps. -/
theorem diamond_close_stepOK {u : RecipeUniverse} {gl : Bool} {fuel : Nat}
    {st : GraphState} {nodeId prevId : Nat} {require : Requirement}
    {node_ref : Option ConanFileReference} {anc : List String} {nm : String}
    {nr : List Requirement} {no : List (String × List (String × String))}
    {st2 : GraphState} {b : Bool}
    (h : diamond_close_step u gl fuel st nodeId prevId require node_ref anc nm nr no =
      .ok (st2, b)) :
    stepOK st st2 := by
  unfold diamond_close_step at h
  dsimp only at h
  split at h
  · exact absurd h (by simp)
  case _ dres heq =>
    split at h
    · exact absurd h (by simp)
    case _ b2 heq2 =>
      obtain ⟨h1, _⟩ := Prod.mk.injEq .. ▸ (Except.ok.injEq .. ▸ h)
      rw [← h1]
      exact stepOK_trans (stepOK_setAliased st dres.aliased)
        (diamond_connect_stepOK { st with aliased := dres.aliased }
          nodeId prevId dres.require anc nm)

/-- The expansion engine never rewrites the public_deps of an existing node:
a successful run from a state whose node ids are below the id counter ends
in such a state again, never decreases the counter, and leaves the exact
public_deps of every node that existed before the run. -/
theorem expand_pd_invariant (u : RecipeUniverse) (gl : Bool) :
    ∀ (fuel : Nat) (st : GraphState) (call : ExpandCall) (st2 : GraphState),
      _expand u gl fuel st call = .ok st2 → idsBounded st →
      idsBounded st2 ∧ st.nextId ≤ st2.nextId ∧ pdFixedBelow st.nextId st st2 := by
  intro fuel
  induction fuel with
  | zero =>
    intro st call st2 h
    exact absurd h (by simp [_expand])
  | succ fuel ih =>
    intro st call st2 h hb
    cases call with
    | node nodeId down_reqs down_ref =>
      simp only [_expand] at h
      split at h
      · exact absurd h (by simp)
      · rename_i stg no2 nr2 heq
        have hs := gnr_stepOK heq
        have h2 := ih stg _ st2 h (hs.2.1 hb)
        refine ⟨h2.1, ?_, ?_⟩
        · have := h2.2.1
          rw [hs.1] at this
          exact this
        · have := h2.2.2
          rw [hs.1] at this
          exact pdFixedBelow_trans (hs.2.2 st.nextId) this
    | loop nodeId requires nr no =>
      cases requires with
      | nil =>
        simp only [_expand] at h
        injection h with h1
        subst h1
        exact ⟨hb, le_refl _, pdFixedBelow_refl _ _⟩
      | cons require rest =>
        simp only [_expand] at h
        split at h
        · exact ih st _ st2 h hb
        · split at h
          · exact absurd h (by simp)
          · rename_i stm heq
            have h1 := ih st _ stm heq hb
            have h2 := ih stm _ st2 h h1.1
            exact ⟨h2.1, le_trans h1.2.1 h2.2.1,
              pdFixedBelow_trans h1.2.2 (pdFixedBelow_mono h1.2.1 h2.2.2)⟩
    | require nodeId require nr no =>
      simp only [_expand] at h
      split at h
      · injection h with h1
        subst h1
        exact ⟨hb, le_refl _, pdFixedBelow_refl _ _⟩
      · rename_i node hn
        split at h
        · exact absurd h (by simp)
        · split at h
          · split at h
            · exact absurd h (by simp)
            · rename_i stA newId hc
              split at h
              · exact absurd h (by simp)
              · rename_i stC he
                obtain ⟨hnew, hnx, hbpres, hpd⟩ := create_new_node_inv hc
                have hat := attach_new_node_stepBelow stA nodeId newId require
                  require.ref.name (le_of_eq hnew.symm)
                have hbB := hat.2.1 (hbpres hb)
                have h3 := ih _ _ stC he hbB
                have hBnx : (attach_new_node stA nodeId newId require
                    require.ref.name).nextId = st.nextId + 1 := hat.1.trans hnx
                have base : idsBounded stC ∧ st.nextId ≤ stC.nextId ∧
                    pdFixedBelow st.nextId st stC := by
                  refine ⟨h3.1, ?_, ?_⟩
                  · have := h3.2.1
                    omega
                  · refine pdFixedBelow_trans (hpd st.nextId)
                      (pdFixedBelow_trans hat.2.2 ?_)
                    exact pdFixedBelow_mono (by omega) h3.2.2
                split at h
                · injection h with h1
                  subst h1
                  exact base
                · injection h with h1
                  subst h1
                  have hm := merge_transitive_stepOK stC nodeId newId
                  refine ⟨hm.2.1 base.1, ?_, pdFixedBelow_trans base.2.2 (hm.2.2 st.nextId)⟩
                  rw [hm.1]
                  exact base.2.1
          · split at h
            · injection h with h1
              subst h1
              exact ⟨hb, le_refl _, pdFixedBelow_refl _ _⟩
            · rename_i prevId hprev
              split at h
              · exact absurd h (by simp)
              · rename_i stD hd
                have hds := diamond_close_stepOK hd
                have h2 := ih stD _ st2 h (hds.2.1 hb)
                refine ⟨h2.1, ?_, ?_⟩
                · have := h2.2.1
                  rw [hds.1] at this
                  exact this
                · have := h2.2.2
                  rw [hds.1] at this
                  exact pdFixedBelow_trans (hds.2.2 st.nextId) this
              · rename_i stD hd
                injection h with h1
                subst h1
                have hds := diamond_close_stepOK hd
                exact ⟨hds.2.1 hb, le_of_eq hds.1.symm, hds.2.2 st.nextId⟩

/- Claim C2. -/

/-- Claim C2 counterexample: root privately requires a and then privately
requires b, and a publicly requires c.  Node 2 (package c) is created inside
the private subtree of a (edge 1 to 2), b (node 3) is a sibling of that
subtree — yet the pair (c, 2) sits in the publicDeps of b, because b's
publicDeps copies the root's public closure, into which c was retroactively
connected through the root's membership in a's inverse closure. -/
theorem claim_C2_counterexample :
    ("c", 2) ∈ c2PublicDeps 3 ∧ c2NodeName 3 = some "b" ∧
    c2NodeName 2 = some "c" ∧ c2EdgePairs = [(0, 1), (1, 2), (0, 3)] := by
  refine ⟨by decide, by rfl, by rfl, by rfl⟩

/-- Claim C2 (amended): a node created for a private or build-type requirement
gets as publicDeps a copy of the requesting node's publicClosure plus itself —
which on concrete inputs differs from a copy of the requesting node's
publicDeps — while a node created for a normal requirement copies the
requesting node's publicDeps plus itself; once assigned, a node's publicDeps
is never rewritten: every successful run of the expansion engine leaves the
exact publicDeps of every node that existed when the run started, so the
publicDeps a sibling copied at its creation can never afterwards receive
nodes of a later private subtree; and independently scoped same-named nodes
of different versions can coexist: scenario D builds successfully with two
distinct c nodes.  But a later private or build sibling does receive the
subtree's publicly connected nodes through the publicClosure copy it takes
at its own creation. -/
theorem claim_C2_theorem :
    (∀ (require : Requirement) (pd pc : OD) (name : String) (newId : Nat),
      (require.priv || require.build_require) = true →
      new_node_public_deps require pd pc name newId = odInsert pc name newId) ∧
    (∀ (require : Requirement) (pd pc : OD) (name : String) (newId : Nat),
      (require.priv || require.build_require) = false →
      new_node_public_deps require pd pc name newId = odInsert pd name newId) ∧
    new_node_public_deps { ref := sibRefB, priv := true } [("root", 0)]
        [("root", 0), ("x", 5)] "b" 7 ≠
      odInsert [("root", 0)] "b" 7 ∧
    (∀ (u : RecipeUniverse) (graph_lock : Bool) (fuel : Nat) (st : GraphState)
      (call : ExpandCall) (st2 : GraphState),
      _expand u graph_lock fuel st call = .ok st2 → idsBounded st →
      idsBounded st2 ∧ st.nextId ≤ st2.nextId ∧ pdFixedBelow st.nextId st st2) ∧
    scenDCNodes = some [some sibRefC, some scenDRefC2] := by
  refine ⟨?_, ?_, by decide, fun u gl => expand_pd_invariant u gl, by rfl⟩
  · intro require pd pc name newId h
    simp [new_node_public_deps, h]
  · intro require pd pc name newId h
    simp [new_node_public_deps, h]

/-- Claim C2 witness: the private and the public initialization branch applied
at a concrete input, and the publicDeps-immutability invariant applied to the
concrete C2 run from its concrete initial state. -/
theorem claim_C2_witness :
    (new_node_public_deps { ref := sibRefB, priv := true } [("root", 0)]
      [("root", 0), ("x", 5)] "b" 7 = odInsert [("root", 0), ("x", 5)] "b" 7) ∧
    (new_node_public_deps { ref := sibRefB } [("root", 0)]
      [("root", 0), ("x", 5)] "b" 7 = odInsert [("root", 0)] "b" 7) ∧
    (idsBounded c2FinalState ∧ c2InitState.nextId ≤ c2FinalState.nextId ∧
      pdFixedBelow c2InitState.nextId c2InitState c2FinalState) :=
  ⟨claim_C2_theorem.1 { ref := sibRefB, priv := true } [("root", 0)]
      [("root", 0), ("x", 5)] "b" 7 (by decide),
   claim_C2_theorem.2.1 { ref := sibRefB } [("root", 0)]
      [("root", 0), ("x", 5)] "b" 7 (by decide),
   claim_C2_theorem.2.2.2.1 c2Universe false 30 c2InitState (.node 0 [] none)
      c2FinalState (by rfl) (by unfold idsBounded; decide)⟩

/- Claim C3. -/

/-- Claim C3: when closing a diamond, the previous node is re-expanded exactly
when no graph lock is active and either some downstream-propagated requirement
names a node of the previous node's public closure whose reference is
version-or-revision incompatible with it, or some downstream option set
assigns to a package of that closure an option value different from the value
currently configured on that node; the re-expansion guard never raises. -/
theorem claim_C3_theorem :
    ∀ (graph_lock : Bool) (st : GraphState) (closure : OD)
      (new_reqs : List Requirement)
      (new_options : List (String × List (String × String))),
      (shouldReexpand graph_lock st closure new_reqs new_options = .ok true ↔
        (graph_lock = false ∧
          ((∃ req ∈ new_reqs, ∃ nid, odGet closure req.ref.name = some nid ∧
              ∃ n, getNode st nid = some n ∧ ∃ nref, n.ref = some nref ∧
                versionOrRevisionIncompatible nref req.ref = true) ∨
           (∃ p ∈ new_options, ∃ nid, odGet closure p.1 = some nid ∧
              ∃ n, getNode st nid = some n ∧
                optionMismatch n.options p.2 = true)))) ∧
      ∃ b, shouldReexpand graph_lock st closure new_reqs new_options = .ok b := by
  intro graph_lock st closure new_reqs new_options
  constructor
  · rw [shouldReexpand_eq]
    constructor
    · intro h
      have hb : (!graph_lock && (new_reqs.any (reqHit st closure) ||
          new_options.any (optHit st closure))) = true := by
        simpa using h
      simp only [Bool.and_eq_true, Bool.not_eq_true', Bool.or_eq_true,
        List.any_eq_true] at hb
      obtain ⟨hlock, hor⟩ := hb
      refine ⟨hlock, ?_⟩
      rcases hor with ⟨req, hreq, hhit⟩ | ⟨p, hp, hhit⟩
      · exact Or.inl ⟨req, hreq, (reqHit_iff st closure req).mp hhit⟩
      · exact Or.inr ⟨p, hp, (optHit_iff st closure p).mp hhit⟩
    · rintro ⟨hlock, hor⟩
      subst hlock
      have hb : (new_reqs.any (reqHit st closure) ||
          new_options.any (optHit st closure)) = true := by
        simp only [Bool.or_eq_true, List.any_eq_true]
        rcases hor with ⟨req, hreq, hrest⟩ | ⟨p, hp, hrest⟩
        · exact Or.inl ⟨req, hreq, (reqHit_iff st closure req).mpr hrest⟩
        · exact Or.inr ⟨p, hp, (optHit_iff st closure p).mpr hrest⟩
      simp [hb]
  · exact ⟨_, shouldReexpand_eq graph_lock st closure new_reqs new_options⟩

/- Claim C4. -/

/-- Claim C4: the conflict detector classifies every pair of references as
follows — version-unequal pairs conflict (with a consumer, through the message
naming consumer, requested and previous; without one, through the bare True);
version-equal pairs whose two present revisions differ yield the distinct
revision conflict (a raised exception with a consumer, True without one); and
version-equal pairs with a revision absent on either side never conflict. -/
theorem claim_C4_theorem :
    ∀ p q : ConanFileReference,
      (p.copy_clear_rev ≠ q.copy_clear_rev →
        (∀ cr, _conflicting_references p q (some cr) = .ok (.conflictMsg ⟨cr, q, p⟩)) ∧
        _conflicting_references p q none = .ok .conflictTrue) ∧
      (p.copy_clear_rev = q.copy_clear_rev →
        ∀ rp rn, p.revision = some rp → q.revision = some rn → rp ≠ rn →
          (∀ cr, _conflicting_references p q (some cr) = .error ⟨cr, q⟩) ∧
          _conflicting_references p q none = .ok .conflictTrue) ∧
      (p.copy_clear_rev = q.copy_clear_rev →
        (p.revision = none ∨ q.revision = none) →
        ∀ oc, _conflicting_references p q oc = .ok .noConflict) :=
  fun p q =>
    ⟨fun h => conflicting_version_unequal h,
     fun h rp rn hp hq hne => conflicting_revision_mismatch h hp hq hne,
     fun h h2 => conflicting_no_conflict h (by tauto)⟩

/-- Claim C4 witness: the three classifications at concrete references. -/
theorem claim_C4_witness :
    _conflicting_references w4P w4Qdiff (some w4C) =
      .ok (.conflictMsg ⟨w4C, w4Qdiff, w4P⟩) ∧
    _conflicting_references w4Pr w4Qr (some w4C) = .error ⟨w4C, w4Qr⟩ ∧
    _conflicting_references w4P w4Qr (some w4C) = .ok .noConflict :=
  ⟨((claim_C4_theorem w4P w4Qdiff).1 (by decide)).1 w4C,
   (((claim_C4_theorem w4Pr w4Qr).2.1 (by decide) "r1" "r2" rfl rfl (by decide)).1 w4C),
   (claim_C4_theorem w4P w4Qr).2.2 (by decide) (Or.inl rfl) (some w4C)⟩

/- Claim C5. -/

/-- Claim C5 counterexample: in the C5 build, node 3 is the d/1.0 node created
under c; when the private d/2.0 sibling closes its diamond on c, the
diamond-close step unions the requesting node's ancestors plus its own name d
into the ancestors of every node of c's public closure, which still contains
node 3 under the name d — leaving node 3, itself named d, with its own name
in its ancestor set. -/
theorem claim_C5_counterexample :
    c5Node3Name = some "d" ∧ c5Node3Ancestors = ["root", "a", "c", "d"] ∧
    "d" ∈ c5Node3Ancestors :=
  ⟨by rfl, by rfl, by decide⟩

/-- Claim C5 (amended): at creation a node's ancestor set equals the
requesting node's ancestors plus the requesting node's name, and therefore
cannot contain the created node's own name whenever that name avoids both
(as the cycle check guarantees when recipe resolution preserves the required
name); the diamond-close ancestor union, however, can insert a node's own
name when the requesting node carries the same name as a node reachable in
the closed node's public closure. -/
theorem claim_C5_theorem :
    ∀ (u : RecipeUniverse) (fuel : Nat) (st : GraphState) (currentId : Nat)
      (req : Requirement) (st2 : GraphState) (newId : Nat) (cur : NodeState),
      getNode st currentId = some cur →
      _create_new_node u fuel st currentId req = .ok (st2, newId) →
      ∀ new_node, st2.nodes = st.nodes ++ [new_node] →
        new_node.ancestors = listUnion cur.ancestors [cur.name] ∧
        (new_node.name ∉ cur.ancestors → new_node.name ≠ cur.name →
          new_node.name ∉ new_node.ancestors) := by
  intro u fuel st currentId req st2 newId cur h1 hok new_node hnodes
  have hanc := create_new_node_ancestors u fuel st currentId req st2 newId cur
    h1 hok new_node hnodes
  refine ⟨hanc, ?_⟩
  intro hna hnn hmem
  rw [hanc] at hmem
  rcases mem_listUnion.mp hmem with h | h
  · exact hna h
  · simp only [List.mem_singleton] at h
    exact hnn h

/-- Claim C5 witness: creating a node for w/1.0 under a bare root gives it the
ancestor set containing exactly the root, which does not contain the new
node's own name. -/
theorem claim_C5_witness :
    w5NewNode.ancestors = listUnion wRootNode.ancestors [wRootNode.name] ∧
    w5NewNode.name ∉ w5NewNode.ancestors :=
  have h := claim_C5_theorem w5Universe 5 w5State 0 { ref := wRefNew } w5State2 1
    wRootNode (by rfl) (by rfl) w5NewNode (by rfl)
  ⟨h.1, h.2 (by decide) (by decide)⟩


/- Claim C6. -/

/-- Claim C6 counterexample: with the cached chain p/latest mapping to
p/stable and p/stable mapping to p/3.0, resolving a requirement for p/latest
rewrites it only to p/stable, which still has a cached alias target different
from itself — the rewrite is not repeated transitively. -/
theorem claim_C6_counterexample :
    _resolve_cached_alias [{ ref := c6RefA }] c6Table = [{ ref := c6RefB }] ∧
    lookupRef c6Table c6RefB = some c6RefC ∧ c6RefB ≠ c6RefC := by
  refine ⟨by decide, by decide, by decide⟩

/-- Claim C6 (amended): the cached-alias resolution step performs exactly one
table lookup per requirement — a requirement whose reference has a cached
target is rewritten to that target once, and a requirement without one is
left unchanged; the rewrite is not repeated, so a chained table leaves the
requirement at the intermediate target. -/
theorem claim_C6_theorem :
    ∀ (aliased : AliasTable) (requires : List Requirement),
      _resolve_cached_alias requires aliased = requires.map (fun r =>
        match lookupRef aliased r.ref with
        | some al => { r with ref := al }
        | none => r) := by
  intro aliased requires
  cases aliased with
  | nil => simp [_resolve_cached_alias, lookupRef]
  | cons p t => simp [_resolve_cached_alias]

/- Claim C7. -/

/-- Claim C7 counterexample: loading the alias chain a/latest to a/stable to
a/3.0 from the entry point used by node creation (no original reference is
supplied there, and the recursion forwards the same absent value) rewrites
the requirement to the final a/3.0 but leaves an alias table in which
a/latest still maps only to the intermediate a/stable — the chain does not
collapse to its final target in the table. -/
theorem claim_C7_counterexample :
    _resolve_recipe aliasChainUniverse 10 { ref := aLatest } [] none =
      .ok ⟨aFinal, {}, { ref := aFinal }, [(aLatest, aStable), (aStable, aFinal)]⟩ ∧
    lookupRef [(aLatest, aStable), (aStable, aFinal)] aLatest = some aStable ∧
    aStable ≠ aFinal := by
  refine ⟨by rfl, by decide, by decide⟩

/-- Claim C7 (amended): when a loaded manifest declares an alias for X, one
resolution step records the revision-stripped resolved reference mapping to X
in the alias table, additionally records X under the upstream original
reference only when one was supplied (no caller in the source supplies one,
and the recursion passes the received value through unchanged), rewrites the
requirement to X and re-resolves recursively. -/
theorem claim_C7_theorem :
    ∀ (u : RecipeUniverse) (fuel : Nat) (requirement : Requirement)
      (aliased : AliasTable) (original_ref : Option ConanFileReference)
      (new_ref : ConanFileReference) (recipe : Recipe)
      (pointed : ConanFileReference),
      getRecipe u requirement.ref = some (new_ref, recipe) →
      recipe.aliasTarget = some pointed →
      _resolve_recipe u (fuel + 1) requirement aliased original_ref =
        _resolve_recipe u fuel { requirement with ref := pointed }
          (match original_ref with
           | some o => insertRef (insertRef aliased new_ref.copy_clear_rev pointed)
               o pointed
           | none => insertRef aliased new_ref.copy_clear_rev pointed)
          original_ref := by
  intro u fuel requirement aliased original_ref new_ref recipe pointed h1 h2
  simp only [_resolve_recipe, h1, h2]

/-- Claim C7 witness: the first step of the concrete chain records the
one-step mapping for a/latest, rewrites the requirement to a/stable and
recurses with the original reference still absent. -/
theorem claim_C7_witness :
    _resolve_recipe aliasChainUniverse 10 { ref := aLatest } [] none =
      _resolve_recipe aliasChainUniverse 9 { ref := aStable }
        (insertRef [] aLatest.copy_clear_rev aStable) none :=
  claim_C7_theorem aliasChainUniverse 9 { ref := aLatest } [] none aLatest
    { aliasTarget := some aStable } aStable (by rfl) (by rfl)

/- Claim C8. -/

/-- Claim C8: the closing reorder of the build-requires injector is the stable
Boolean-keyed sort of the public closure — the result is exactly the newly
added entries (those whose graph node has no package id) in their original
relative order, followed by the pre-existing entries in their original
relative order; on scenario E, a closure x, y, z where only z is new becomes
z, x, y. -/
theorem claim_C8_theorem :
    (∀ (graphNodes : List NodeState) (public_closure : OD),
      extend_build_requires_reorder graphNodes public_closure =
        public_closure.filter (fun e => isNewEntry graphNodes e) ++
        public_closure.filter (fun e => !(isNewEntry graphNodes e))) ∧
    extend_build_requires_reorder scenENodes [("x", 1), ("y", 2), ("z", 3)] =
      [("z", 3), ("x", 1), ("y", 2)] := by
  constructor
  · intro g pc
    unfold extend_build_requires_reorder
    rw [pyStableSortByKey_partition]
    simp only [Bool.not_not]
  · decide

/- Claim C9. -/

/-- Claim C9: without a graph lock, when a node's requirements hook has been
evaluated before, a repeated evaluation producing a different requirement set
makes the requirement-evaluation step fail with the RequirementsNondeterminism
error (carrying the node, the previous and the new sets), while an identical
set proceeds normally; under a lock the step always succeeds and the check is
never consulted. -/
theorem claim_C9_theorem :
    (∀ (scope : Option ConanFileReference) (r0 current : List Requirement),
      current ≠ r0 →
      checkEvaluatedRequires scope (some r0) current =
        .error (.nondeterministicRequirements scope r0 current)) ∧
    (∀ (scope : Option ConanFileReference) (r0 : List Requirement),
      checkEvaluatedRequires scope (some r0) r0 = .ok r0) ∧
    (∀ (st : GraphState) (nodeId : Nat) (down_reqs : List Requirement)
      (node : NodeState) (r0 : List Requirement),
      getNode st nodeId = some node →
      node.evaluatedRequires = some r0 →
      ∀ own3, own3 = _resolve_cached_alias (updateRequiresDownstream
          (_resolve_cached_alias node.declaredRequires st.aliased) down_reqs).1
          st.aliased →
        own3 ≠ r0 →
        _get_node_requirements st nodeId down_reqs false =
          .error (.nondeterministicRequirements node.ref r0 own3)) ∧
    (∀ (st : GraphState) (nodeId : Nat) (down_reqs : List Requirement),
      ∃ r, _get_node_requirements st nodeId down_reqs true = .ok r) := by
  refine ⟨?_, ?_, ?_, ?_⟩
  · intro scope r0 current h
    simp [checkEvaluatedRequires, h]
  · intro scope r0
    simp [checkEvaluatedRequires]
  · intro st nodeId down_reqs node r0 h1 h2 own3 hdef hne
    subst hdef
    exact get_node_requirements_nondeterminism st nodeId down_reqs node r0 h1 h2 hne
  · intro st nodeId down_reqs
    exact get_node_requirements_locked st nodeId down_reqs

/-- Claim C9 witness: a differing re-evaluation fails with the
nondeterminism error and an identical one proceeds, at concrete requirement
sets. -/
theorem claim_C9_witness :
    checkEvaluatedRequires none (some [{ ref := w9Ref }]) [{ ref := w9Ref2 }] =
      .error (.nondeterministicRequirements none [{ ref := w9Ref }]
        [{ ref := w9Ref2 }]) ∧
    checkEvaluatedRequires none (some [{ ref := w9Ref }]) [{ ref := w9Ref }] =
      .ok [{ ref := w9Ref }] :=
  ⟨claim_C9_theorem.1 none [{ ref := w9Ref }] [{ ref := w9Ref2 }] (by decide),
   claim_C9_theorem.2.1 none [{ ref := w9Ref }]⟩

/- Claim C10. -/

/-- Claim C10: invoked with a consumer reference on version-equal references
with differing present revisions, the conflict detector raises the revision
conflict immediately instead of returning a conflict indication; consequently
a first-check revision conflict makes the diamond-closing step fail at once
(for every recipe universe, so no re-resolution can be involved), a
first-check no-conflict completes with zero re-resolution calls, and an
outcome with one re-resolution call is possible only when the first check was
a version conflict (version-unequal references). -/
theorem claim_C10_theorem :
    (∀ (p q cr : ConanFileReference) (rp rn : String),
      p.copy_clear_rev = q.copy_clear_rev → p.revision = some rp →
      q.revision = some rn → rp ≠ rn →
      _conflicting_references p q (some cr) = .error ⟨cr, q⟩) ∧
    (∀ (u : RecipeUniverse) (fuel : Nat) (previous_ref : ConanFileReference)
      (node_ref : Option ConanFileReference) (require : Requirement)
      (aliased : AliasTable) (m : RevisionConflictMsg),
      _conflicting_references previous_ref
        (resolveCachedAliasOne aliased require).ref node_ref = .error m →
      diamond_conflict_check u fuel previous_ref node_ref require aliased =
        .error (.revisionConflict m)) ∧
    (∀ (u : RecipeUniverse) (fuel : Nat) (previous_ref : ConanFileReference)
      (node_ref : Option ConanFileReference) (require : Requirement)
      (aliased : AliasTable),
      _conflicting_references previous_ref
        (resolveCachedAliasOne aliased require).ref node_ref = .ok .noConflict →
      diamond_conflict_check u fuel previous_ref node_ref require aliased =
        .ok ⟨resolveCachedAliasOne aliased require, aliased, 0⟩) ∧
    (∀ (u : RecipeUniverse) (fuel : Nat) (previous_ref : ConanFileReference)
      (cr : ConanFileReference) (require : Requirement) (aliased : AliasTable)
      (r : DiamondCheckResult),
      diamond_conflict_check u fuel previous_ref (some cr) require aliased = .ok r →
      r.resolveCalls = 1 →
      previous_ref.copy_clear_rev ≠
        (resolveCachedAliasOne aliased require).ref.copy_clear_rev) := by
  refine ⟨?_, ?_, ?_, ?_⟩
  · intro p q cr rp rn h hp hq hne
    exact (conflicting_revision_mismatch h hp hq hne).1 cr
  · intro u fuel previous_ref node_ref require aliased m h
    exact dcc_first_revision h
  · intro u fuel previous_ref node_ref require aliased h
    exact dcc_no_conflict h
  · intro u fuel previous_ref cr require aliased r hok hcalls hv
    have hzero : diamond_conflict_check u fuel previous_ref (some cr) require aliased =
        .ok ⟨resolveCachedAliasOne aliased require, aliased, 0⟩ ∨
        ∃ e, diamond_conflict_check u fuel previous_ref (some cr) require aliased =
          .error e := by
      cases hp : previous_ref.revision with
      | none =>
        exact Or.inl (dcc_no_conflict (conflicting_no_conflict hv (Or.inl hp) _))
      | some rp =>
        cases hq : (resolveCachedAliasOne aliased require).ref.revision with
        | none =>
          exact Or.inl (dcc_no_conflict
            (conflicting_no_conflict hv (Or.inr (Or.inl hq)) _))
        | some rn =>
          by_cases hr : rp = rn
          · refine Or.inl (dcc_no_conflict (conflicting_no_conflict hv ?_ _))
            exact Or.inr (Or.inr (by rw [hp, hq, hr]))
          · exact Or.inr ⟨_, dcc_first_revision
              ((conflicting_revision_mismatch hv hp hq hr).1 cr)⟩
    rcases hzero with hz | ⟨e, hz⟩
    · rw [hok] at hz
      injection hz with h
      rw [h] at hcalls
      simp at hcalls
    · rw [hok] at hz
      cases hz

/-- Claim C10 witness: at concrete revision-conflicting references the
detector raises, the diamond step fails immediately, and at equal references
the diamond step completes with zero re-resolution calls. -/
theorem claim_C10_witness :
    _conflicting_references w10Prev w10Req (some w10C) = .error ⟨w10C, w10Req⟩ ∧
    diamond_conflict_check [] 5 w10Prev (some w10C) { ref := w10Req } [] =
      .error (.revisionConflict ⟨w10C, w10Req⟩) ∧
    diamond_conflict_check [] 5 w10Prev (some w10C) { ref := w10Prev } [] =
      .ok ⟨{ ref := w10Prev }, [], 0⟩ :=
  ⟨claim_C10_theorem.1 w10Prev w10Req w10C "r1" "r2" (by decide) rfl rfl (by decide),
   claim_C10_theorem.2.1 [] 5 w10Prev (some w10C) { ref := w10Req } []
     ⟨w10C, w10Req⟩ (by rfl),
   claim_C10_theorem.2.2.1 [] 5 w10Prev (some w10C) { ref := w10Prev } [] (by rfl)⟩

end ConanGraph
